import Mathlib

/-!
ChatService (connectors/source-chatai/chat/chat.go)

A shallow embedding of the quota-enforcing chat router: the per-user counters
(`addNum`, `getNum`), the day rollover (`reset`) and the two dispatch paths
(`ChatCompletion`, `ChatCompletionStream`).

Modelling conventions

* A method with a pointer receiver becomes a function that takes the service
  value and returns the new one next to the Go results.
* Go `int` is a 64-bit two's complement integer: values are `Int`, and the one
  arithmetic operation on counts (`num++`) wraps with `wrapInt`.
* `map[string]int` is an association list read with `List.lookup` and written
  with `mapStore`.
* The two `ChatClient` values are external collaborators.  Each is a record of
  functions over a client state `σ`, so a client may answer differently on
  every call.  Every method call made on a client is appended, with what the
  client returned, to the ghost field `calls`.
* The `zerolog` logger is the ghost field `logger`, the list of records written.
* The lock only matters for overlapping calls; `ChatCompletion` and
  `ChatCompletionStream` are the sequential behaviour of one call.  For
  overlapping calls each of the two is cut at the places where it does not hold
  the lock into three parts (`_enter`, `_switch`, `_tail`), which compose to
  the whole function, and overlapping calls are interleavings of these parts
  (`Event`, `concStep`).
* The clock is read through package `time`; an instant is its UTC wall clock
  reading in nanoseconds (`time.Time`), and the first delay of the scheduler
  goroutine is `firstTickerDelay`.
-/

namespace Chat

/-! ## Values of the Go runtime -/

/-- Go `error` value made by `fmt.Errorf`, represented by its text.  Errors with
different texts are different values; nothing below relies on two separately
created errors being the same value. -/
structure GoError where
  text : String
deriving DecidableEq, Repr

/-- Go `context.Context` handed in by the caller. -/
structure Context where
  id : Nat
  cancelled : Bool
deriving DecidableEq, Repr

/-- Go `model.ChatCompletionStream`: what the handle yields when it is consumed. -/
structure model.ChatCompletionStream where
  chunks : List String
  err : Option GoError
deriving DecidableEq, Repr

/-- Least value of a Go `int`. -/
def minInt : Int := -(2 ^ 63)

/-- Greatest value of a Go `int`. -/
def maxInt : Int := 2 ^ 63 - 1

/-- Being a value of the Go type `int`. -/
def isInt (x : Int) : Prop := minInt ≤ x ∧ x ≤ maxInt

instance (x : Int) : Decidable (isInt x) := by
  unfold isInt; infer_instance

/-- Two's complement wrap-around of `int` arithmetic. -/
def wrapInt (x : Int) : Int := (x + 2 ^ 63) % 2 ^ 64 - 2 ^ 63

/-- Go `%d` rendering of an `int`. -/
def fmtInt (n : Int) : List Char := (toString n).data

/-- Expansion of a format string, for the verb `%d` over `int` arguments. -/
def sprintfChars : List Char → List Int → List Char
  | [], _ => []
  | [c], _ => [c]
  | c :: d :: rest, args =>
    if c = '%' ∧ d = 'd' then
      match args with
      | a :: args2 => fmtInt a ++ sprintfChars rest args2
      | [] => "%!d(MISSING)".data ++ sprintfChars rest []
    else c :: sprintfChars (d :: rest) args

/-- Go `fmt.Sprintf`. -/
def Sprintf (format : String) (args : List Int) : String :=
  String.mk (sprintfChars format.data args)

/-- Go `fmt.Errorf`. -/
def Errorf (format : String) (args : List Int) : GoError :=
  ⟨Sprintf format args⟩

/-! ## chat.go -/

def responseEmpty : String := "Get response empty."

def responseErr : String := "Get response failed."

def ErrLimit : GoError := Errorf "reached the daily limit" []

/-- The interface `ChatClient`, over the client's own state `σ`. -/
structure ChatClient (σ : Type) where
  SendChatCompletion : σ → Context → String → String → (String × Option GoError) × σ
  SendChatCompletionStream :
    σ → Context → String → String → (Option model.ChatCompletionStream × Option GoError) × σ
  Reset : σ → σ

/-- The Go type `Type` (a string). -/
abbrev ChatType := String

def ChatGPT : ChatType := "chatgpt"

def ChatErnieBot : ChatType := "wenxin"

/-- Modelled from the spec: the declaration of `ChatConfig` is not in the source
at hand; these are the two fields `chat.go` reads after construction
(`defaultProviderTag` and `everydayLimit` in the spec). -/
structure ChatConfig where
  DefaultChatMode : ChatType
  EverydayLimit : Int
deriving DecidableEq, Repr

/-- Which of the two client fields of the service a call went to. -/
inductive Client where
  | chatGpt
  | ernieBot
deriving DecidableEq, Repr

/-- One method call on a client, with what the client returned. -/
inductive Call where
  | SendChatCompletion (client : Client) (ctx : Context) (userIdentifier content : String)
      (resp : String) (err : Option GoError)
  | SendChatCompletionStream (client : Client) (ctx : Context) (userIdentifier content : String)
      (stream : Option model.ChatCompletionStream) (err : Option GoError)
  | Reset (client : Client)
deriving DecidableEq, Repr

/-- One record written to the logger: the fields set with `Interface` and `Str`,
and the message. -/
structure LogRecord where
  chat : Option ChatType
  user : String
  msg : String
deriving DecidableEq, Repr

/-- The struct `ChatService`, with the state of its two clients and the ghost
fields `calls` and `logger`. -/
structure ChatService (σ : Type) where
  chatGpt : ChatClient σ
  ernieBot : ChatClient σ
  gptState : σ
  ernieState : σ
  config : ChatConfig
  day : Int
  limitContent : String
  userNum : List (String × Int)
  calls : List Call
  logger : List LogRecord

/-- Assignment `m[k] = v` on a map. -/
def mapStore : List (String × Int) → String → Int → List (String × Int)
  | [], k, v => [(k, v)]
  | (k', v') :: rest, k, v =>
    if k' = k then (k, v) :: rest else (k', v') :: mapStore rest k v

/-- `NewChatService`, up to the start of the scheduler goroutine.  The missing
`config.init`, the two client constructors and the value of `today()` are
parameters. -/
def NewChatService {σ : Type} (init : ChatConfig → ChatConfig) (config : ChatConfig)
    (chatGpt ernieBot : ChatClient σ) (gptState ernieState : σ) (today : Int) :
    ChatService σ :=
  let config := init config
  { chatGpt := chatGpt
    ernieBot := ernieBot
    gptState := gptState
    ernieState := ernieState
    config := config
    day := today
    limitContent :=
      Sprintf "You've reached the daily limit (%d/day). Your quota will be restored tomorrow."
        [config.EverydayLimit]
    userNum := []
    calls := []
    logger := [] }

def addNum {σ : Type} (s : ChatService σ) (userIdentifier : String) : ChatService σ :=
  let num := match s.userNum.lookup userIdentifier with
    | some n => n
    | none => 0
  let num := wrapInt (num + 1)
  { s with userNum := mapStore s.userNum userIdentifier num }

def getNum {σ : Type} (s : ChatService σ) (userIdentifier : String) : Int :=
  match s.userNum.lookup userIdentifier with
  | some num => num
  | none => 0

/-- The method `reset`; `t` is the value `today()` returns after the pause. -/
def reset {σ : Type} (s : ChatService σ) (t : Int) : ChatService σ :=
  if s.day = t then s
  else
    { s with
      day := t
      userNum := []
      gptState := s.chatGpt.Reset s.gptState
      ernieState := s.ernieBot.Reset s.ernieState
      calls := s.calls ++ [Call.Reset Client.chatGpt, Call.Reset Client.ernieBot] }

def ChatCompletion {σ : Type} (s : ChatService σ) (ctx : Context) (chatType : ChatType)
    (userIdentifier content : String) : (String × Option GoError) × ChatService σ :=
  let chatType := if chatType = "" then s.config.DefaultChatMode else chatType
  let num := getNum s userIdentifier
  if num ≥ s.config.EverydayLimit then
    ((s.limitContent, some ErrLimit), s)
  else
    let s := { s with
      logger := s.logger ++ [⟨some chatType, userIdentifier, "receive content:" ++ content⟩] }
    let out : (String × Option GoError) × ChatService σ :=
      if chatType = ChatErnieBot then
        let r := s.ernieBot.SendChatCompletion s.ernieState ctx userIdentifier content
        (r.1, { s with
          ernieState := r.2
          calls := s.calls ++
            [Call.SendChatCompletion Client.ernieBot ctx userIdentifier content r.1.1 r.1.2] })
      else if chatType = ChatGPT then
        let r := s.chatGpt.SendChatCompletion s.gptState ctx userIdentifier content
        (r.1, { s with
          gptState := r.2
          calls := s.calls ++
            [Call.SendChatCompletion Client.chatGpt ctx userIdentifier content r.1.1 r.1.2] })
      else (("", none), s)
    let resp := out.1.1
    let err := out.1.2
    let s := out.2
    match err with
    | some e => ((responseErr, some e), s)
    | none =>
      if resp = "" then ((responseEmpty, none), s)
      else ((resp, none), addNum s userIdentifier)

def ChatCompletionStream {σ : Type} (s : ChatService σ) (ctx : Context) (chatType : ChatType)
    (userIdentifier content : String) :
    (Option model.ChatCompletionStream × Option GoError) × ChatService σ :=
  let chatType := if chatType = "" then s.config.DefaultChatMode else chatType
  let num := getNum s userIdentifier
  if num ≥ s.config.EverydayLimit then
    ((none, some (Errorf
      "you've reached the daily limit (%d/day). Your quota will be restored tomorrow"
      [s.config.EverydayLimit])), s)
  else
    let s := { s with
      logger := s.logger ++ [⟨none, userIdentifier, "receive content:" ++ content⟩] }
    let out : (Option model.ChatCompletionStream × Option GoError) × ChatService σ :=
      if chatType = ChatErnieBot then
        let r := s.ernieBot.SendChatCompletionStream s.ernieState ctx userIdentifier content
        (r.1, { s with
          ernieState := r.2
          calls := s.calls ++
            [Call.SendChatCompletionStream Client.ernieBot ctx userIdentifier content
              r.1.1 r.1.2] })
      else if chatType = ChatGPT then
        let r := s.chatGpt.SendChatCompletionStream s.gptState ctx userIdentifier content
        (r.1, { s with
          gptState := r.2
          calls := s.calls ++
            [Call.SendChatCompletionStream Client.chatGpt ctx userIdentifier content
              r.1.1 r.1.2] })
      else ((none, none), s)
    let stream := out.1.1
    let err := out.1.2
    let s := out.2
    match err with
    | some e => ((none, some e), s)
    | none => ((stream, none), addNum s userIdentifier)

/-! ## Fixtures used by the concrete instances -/

/-- A client that answers every completion with the text `reply` and no error,
counts its calls in its state, and opens a one-chunk stream. -/
def echoClient (reply : String) : ChatClient Nat where
  SendChatCompletion := fun st _ _ _ => ((reply, none), st + 1)
  SendChatCompletionStream := fun st _ _ _ => ((some ⟨[reply], none⟩, none), st + 1)
  Reset := fun _ => 0

/-- A client whose every call fails with the error `e`; the text it returns
next to the error is `sideText`. -/
def failingClient (sideText : String) (e : GoError) : ChatClient Nat where
  SendChatCompletion := fun st _ _ _ => ((sideText, some e), st + 1)
  SendChatCompletionStream := fun st _ _ _ => ((none, some e), st + 1)
  Reset := fun _ => 0

def bgCtx : Context := ⟨0, false⟩

/-- A service built by `NewChatService` with daily limit `limit`, default tag
`chatgpt`, on day 14. -/
def demoService (limit : Int) (gpt ernie : ChatClient Nat) : ChatService Nat :=
  NewChatService id ⟨ChatGPT, limit⟩ gpt ernie 0 0 14

/-- The arguments of one `ChatCompletion` call. -/
structure Request where
  ctx : Context
  chatType : ChatType
  userIdentifier : String
  content : String
deriving DecidableEq, Repr

/-- A run of consecutive `ChatCompletion` calls, one per request, with no
`reset` in between. -/
def serve {σ : Type} (s : ChatService σ) (reqs : List Request) : ChatService σ :=
  reqs.foldl (fun s r => (ChatCompletion s r.ctx r.chatType r.userIdentifier r.content).2) s

/-- A recorded `SendChatCompletion` call made for user `u` that succeeded: the
client returned a non-empty text and a nil error. -/
def succeededFor (u : String) : Call → Bool
  | Call.SendChatCompletion _ _ v _ resp none => decide (v = u) && decide (resp ≠ "")
  | _ => false

/-- Number of successful completions for `u` among the recorded calls. -/
def successes (calls : List Call) (u : String) : Nat :=
  (calls.filter (succeededFor u)).length

/-- The count of every user equals the number of recorded successful
completions for that user. -/
def CountsMatch {σ : Type} (s : ChatService σ) : Prop :=
  ∀ u, getNum s u = (successes s.calls u : Int)

def demo : ChatService Nat := demoService 3 (echoClient "hi") (echoClient "ni hao")

def req (u : String) : Request := ⟨bgCtx, "", u, "hello"⟩

/-- The demo service after three successful completions for `u1`. -/
def demoFull : ChatService Nat := serve demo [req "u1", req "u1", req "u1"]

/-- A service with limit 3 whose `chatgpt` client answers and whose `wenxin`
client fails. -/
def mixed : ChatService Nat :=
  demoService 3 (echoClient "hi") (failingClient "" ⟨"upstream unavailable"⟩)

/-- Three successful completions for `u1`, interleaved with a failed call and a
call with an unknown tag for `u1`, and a successful call for `u2`. -/
def mixedRun : List Request :=
  [req "u1", ⟨bgCtx, "wenxin", "u1", "hello"⟩, req "u2", req "u1",
   ⟨bgCtx, "bard", "u1", "hello"⟩, req "u1"]

/-! ## Package `time` of the Go standard library

The goroutine started by `NewChatService` and the function `today` read the
clock through package `time`.  An instant is its wall clock reading in UTC, in
nanoseconds since the Unix epoch (`time.Now().UTC()` carries no monotonic
reading), and the calendar is the proleptic Gregorian one. -/

/-- Year, month and day of the day number `z`, counted from 1970-01-01. -/
def civilOfDays (z : Int) : Int × Int × Int :=
  let z := z + 719468
  let era := z / 146097
  let doe := z - era * 146097
  let yoe := (doe - doe / 1460 + doe / 36524 - doe / 146096) / 365
  let doy := doe - (365 * yoe + yoe / 4 - yoe / 100)
  let mp := (5 * doy + 2) / 153
  let d := doy - (153 * mp + 2) / 5 + 1
  let m := if mp < 10 then mp + 3 else mp - 9
  let y := yoe + era * 400
  (if m ≤ 2 then y + 1 else y, m, d)

/-- Day number, counted from 1970-01-01, of a year, month and day; a month
outside 1..12 is carried into the year and a day outside the month is counted
on, as `time.Date` normalises them. -/
def daysOfCivil (year month day : Int) : Int :=
  let year := year + (month - 1) / 12
  let month := (month - 1) % 12 + 1
  let y := if month ≤ 2 then year - 1 else year
  let era := y / 400
  let yoe := y - era * 400
  let mp := if month > 2 then month - 3 else month + 9
  let doy := (153 * mp + 2) / 5 + day - 1
  let doe := yoe * 365 + yoe / 4 - yoe / 100 + doy
  era * 146097 + doe - 719468

namespace time

/-- Go `time.Duration`: a number of nanoseconds. -/
abbrev Duration := Int

def Nanosecond : Duration := 1

def Second : Duration := 1000000000 * Nanosecond

def Minute : Duration := 60 * Second

def Hour : Duration := 60 * Minute

def minDuration : Duration := -(2 ^ 63)

def maxDuration : Duration := 2 ^ 63 - 1

/-- Go `time.Time` in UTC. -/
structure Time where
  unixNano : Int
deriving DecidableEq, Repr

def Time.Add (t : Time) (d : Duration) : Time := ⟨t.unixNano + d⟩

/-- The method `Sub`, which saturates at the ends of `Duration`. -/
def Time.Sub (t u : Time) : Duration :=
  let d := t.unixNano - u.unixNano
  if d < minDuration then minDuration else if d > maxDuration then maxDuration else d

/-- Whole seconds since the Unix epoch. -/
def Time.unixSec (t : Time) : Int := t.unixNano / 1000000000

def Time.Year (t : Time) : Int := (civilOfDays (t.unixSec / 86400)).1

def Time.Month (t : Time) : Int := (civilOfDays (t.unixSec / 86400)).2.1

def Time.Day (t : Time) : Int := (civilOfDays (t.unixSec / 86400)).2.2

def Time.Hour (t : Time) : Int := t.unixSec % 86400 / 3600

/-- The function `time.Date` with location UTC. -/
def Date (year month day hour min sec nsec : Int) : Time :=
  ⟨(daysOfCivil year month day * 86400 + hour * 3600 + min * 60 + sec) * 1000000000 + nsec⟩

end time

/-- The function `today`; `now` is the reading of `time.Now().UTC()`. -/
def today (now : time.Time) : Int := now.Day

/-- The delay handed to the first `time.NewTicker` by the goroutine that
`NewChatService` starts; `now` is the reading of `time.Now().UTC()` there. -/
def firstTickerDelay (now : time.Time) : time.Duration :=
  let next := now.Add time.Hour
  let next := time.Date next.Year next.Month next.Day next.Hour 0 0 0
  next.Sub now

/-- An instant on a whole hour of the UTC clock: minute, second and nanosecond
are all zero. -/
def wholeHour (t : time.Time) : Prop := t.unixNano % time.Hour = 0

instance (t : time.Time) : Decidable (wholeHour t) := by
  unfold wholeHour; infer_instance

/-- What one call may do to the day, the configuration and the counts: nothing,
or one `addNum` for the requesting user after a passed limit check. -/
def QuotaFrame {σ : Type} (s s1 : ChatService σ) (userIdentifier : String) : Prop :=
  s1.day = s.day ∧ s1.config = s.config ∧
  (s1.userNum = s.userNum ∨
    (getNum s userIdentifier < s.config.EverydayLimit ∧
      s1.userNum = (addNum s userIdentifier).userNum))

/-- The frame of one request for `userIdentifier` that leads from `s` to `s1`:
the day is kept, the counts of the other users are kept, the user's own count
is kept or raised by one, and the client calls added contain no `Reset`. -/
def RequestFrame {σ : Type} (s s1 : ChatService σ) (userIdentifier : String) : Prop :=
  s1.day = s.day ∧
  (∀ v, v ≠ userIdentifier → getNum s1 v = getNum s v) ∧
  (getNum s1 userIdentifier = getNum s userIdentifier ∨
    getNum s1 userIdentifier = getNum s userIdentifier + 1) ∧
  getNum s userIdentifier ≤ getNum s1 userIdentifier ∧
  ∃ added : List Call, s1.calls = s.calls ++ added ∧
    ∀ c ∈ added, ∀ client, c ≠ Call.Reset client

/-- One call on the service, made when no other call is running. -/
inductive Op where
  | ChatCompletion (ctx : Context) (chatType : ChatType) (userIdentifier content : String)
  | ChatCompletionStream (ctx : Context) (chatType : ChatType) (userIdentifier content : String)
  | reset (t : Int)
deriving DecidableEq, Repr

/-- The service after one call. -/
def applyOp {σ : Type} (s : ChatService σ) : Op → ChatService σ
  | Op.ChatCompletion ctx chatType userIdentifier content =>
    (ChatCompletion s ctx chatType userIdentifier content).2
  | Op.ChatCompletionStream ctx chatType userIdentifier content =>
    (ChatCompletionStream s ctx chatType userIdentifier content).2
  | Op.reset t => reset s t

/-- The service after a sequence of calls that do not overlap. -/
def runOps {σ : Type} (s : ChatService σ) (ops : List Op) : ChatService σ :=
  ops.foldl applyOp s

/-- Every count lies between zero and the daily limit. -/
def CountsBounded {σ : Type} (s : ChatService σ) : Prop :=
  ∀ u, 0 ≤ getNum s u ∧ getNum s u ≤ s.config.EverydayLimit

/-- A sequence of calls that fills the quota of `u1` under limit 1, tries once
more, rolls the day over and starts again. -/
def busyDay : List Op :=
  [Op.ChatCompletion bgCtx "" "u1" "a", Op.ChatCompletionStream bgCtx "" "u1" "b",
   Op.reset 15, Op.ChatCompletionStream bgCtx "bard" "u1" "c",
   Op.ChatCompletion bgCtx "" "u2" "d"]

/-- A request context that has been cancelled. -/
def cancelledCtx : Context := ⟨1, true⟩

/-- A client that gives up with an error when the context it is handed is
cancelled, and answers `reply` otherwise. -/
def ctxAwareClient (reply : String) : ChatClient Nat where
  SendChatCompletion := fun st ctx _ _ =>
    if ctx.cancelled then (("", some ⟨"context canceled"⟩), st + 1)
    else ((reply, none), st + 1)
  SendChatCompletionStream := fun st ctx _ _ =>
    if ctx.cancelled then ((none, some ⟨"context canceled"⟩), st + 1)
    else ((some ⟨[reply], none⟩, none), st + 1)
  Reset := fun _ => 0

/-! ## Requests that overlap

`getNum` and `addNum` take the lock, the client call between them does not.
A request therefore runs in three parts: up to its limit check and log line,
then the `switch` that calls a client, then the rest down to its return.
Overlapping requests are interleavings of these parts on the shared service. -/

/-- The local variables of a request that has passed its limit check and has
not returned yet: its arguments, with the tag already resolved, and its named
results, which start at their zero values; `called` tells whether its `switch`
has run. -/
structure InFlight where
  stream : Bool
  ctx : Context
  chatType : ChatType
  userIdentifier : String
  content : String
  called : Bool
  resp : String
  handle : Option model.ChatCompletionStream
  err : Option GoError
deriving DecidableEq, Repr

/-- The first part of `ChatCompletion`, up to its log line: the call returns
the limit result at once, or goes on as a request in flight. -/
def ChatCompletion_enter {σ : Type} (s : ChatService σ) (ctx : Context) (chatType : ChatType)
    (userIdentifier content : String) :
    ((String × Option GoError) ⊕ InFlight) × ChatService σ :=
  let chatType := if chatType = "" then s.config.DefaultChatMode else chatType
  let num := getNum s userIdentifier
  if num ≥ s.config.EverydayLimit then
    (Sum.inl (s.limitContent, some ErrLimit), s)
  else
    (Sum.inr ⟨false, ctx, chatType, userIdentifier, content, false, "", none, none⟩,
      { s with
        logger := s.logger ++
          [⟨some chatType, userIdentifier, "receive content:" ++ content⟩] })

/-- The `switch` of `ChatCompletion`. -/
def ChatCompletion_switch {σ : Type} (s : ChatService σ) (r : InFlight) :
    InFlight × ChatService σ :=
  if r.chatType = ChatErnieBot then
    let q := s.ernieBot.SendChatCompletion s.ernieState r.ctx r.userIdentifier r.content
    ({ r with called := true, resp := q.1.1, err := q.1.2 },
      { s with
        ernieState := q.2
        calls := s.calls ++
          [Call.SendChatCompletion Client.ernieBot r.ctx r.userIdentifier r.content
            q.1.1 q.1.2] })
  else if r.chatType = ChatGPT then
    let q := s.chatGpt.SendChatCompletion s.gptState r.ctx r.userIdentifier r.content
    ({ r with called := true, resp := q.1.1, err := q.1.2 },
      { s with
        gptState := q.2
        calls := s.calls ++
          [Call.SendChatCompletion Client.chatGpt r.ctx r.userIdentifier r.content
            q.1.1 q.1.2] })
  else ({ r with called := true }, s)

/-- The last part of `ChatCompletion`, from the test of `err` to the return. -/
def ChatCompletion_tail {σ : Type} (s : ChatService σ) (r : InFlight) :
    (String × Option GoError) × ChatService σ :=
  match r.err with
  | some e => ((responseErr, some e), s)
  | none =>
    if r.resp = "" then ((responseEmpty, none), s)
    else ((r.resp, none), addNum s r.userIdentifier)

/-- The first part of `ChatCompletionStream`, up to its log line. -/
def ChatCompletionStream_enter {σ : Type} (s : ChatService σ) (ctx : Context)
    (chatType : ChatType) (userIdentifier content : String) :
    ((Option model.ChatCompletionStream × Option GoError) ⊕ InFlight) × ChatService σ :=
  let chatType := if chatType = "" then s.config.DefaultChatMode else chatType
  let num := getNum s userIdentifier
  if num ≥ s.config.EverydayLimit then
    (Sum.inl (none, some (Errorf
      "you've reached the daily limit (%d/day). Your quota will be restored tomorrow"
      [s.config.EverydayLimit])), s)
  else
    (Sum.inr ⟨true, ctx, chatType, userIdentifier, content, false, "", none, none⟩,
      { s with
        logger := s.logger ++ [⟨none, userIdentifier, "receive content:" ++ content⟩] })

/-- The `switch` of `ChatCompletionStream`. -/
def ChatCompletionStream_switch {σ : Type} (s : ChatService σ) (r : InFlight) :
    InFlight × ChatService σ :=
  if r.chatType = ChatErnieBot then
    let q := s.ernieBot.SendChatCompletionStream s.ernieState r.ctx r.userIdentifier r.content
    ({ r with called := true, handle := q.1.1, err := q.1.2 },
      { s with
        ernieState := q.2
        calls := s.calls ++
          [Call.SendChatCompletionStream Client.ernieBot r.ctx r.userIdentifier r.content
            q.1.1 q.1.2] })
  else if r.chatType = ChatGPT then
    let q := s.chatGpt.SendChatCompletionStream s.gptState r.ctx r.userIdentifier r.content
    ({ r with called := true, handle := q.1.1, err := q.1.2 },
      { s with
        gptState := q.2
        calls := s.calls ++
          [Call.SendChatCompletionStream Client.chatGpt r.ctx r.userIdentifier r.content
            q.1.1 q.1.2] })
  else ({ r with called := true }, s)

/-- The last part of `ChatCompletionStream`, from the test of `err` to the
return. -/
def ChatCompletionStream_tail {σ : Type} (s : ChatService σ) (r : InFlight) :
    (Option model.ChatCompletionStream × Option GoError) × ChatService σ :=
  match r.err with
  | some e => ((none, some e), s)
  | none => ((r.handle, none), addNum s r.userIdentifier)

/-- One part of some request, or one run of `reset` by the scheduler.  The
requests in flight are named by their position in the list. -/
inductive Event where
  /-- A new call of `ChatCompletion` (`stream = false`) or `ChatCompletionStream`
  (`stream = true`) runs its first part. -/
  | enter (stream : Bool) (ctx : Context) (chatType : ChatType)
      (userIdentifier content : String)
  /-- The request at position `i` runs its `switch`. -/
  | switch (i : Nat)
  /-- The request at position `i`, whose `switch` has run, runs its last part
  and returns. -/
  | tail (i : Nat)
  /-- The scheduler runs `reset` while `today()` is `t`. -/
  | reset (t : Int)
deriving DecidableEq, Repr

/-- The shared service and the requests in flight. -/
structure Concurrent (σ : Type) where
  svc : ChatService σ
  inFlight : List InFlight

/-- One step of the interleaving.  Every `enter` is a step: nothing limits how
many requests are in flight.  A `switch` or `tail` that names no request, or a
request in the other phase, is not a step of any request and leaves the state
alone. -/
def concStep {σ : Type} (c : Concurrent σ) : Event → Concurrent σ
  | Event.enter stream ctx chatType userIdentifier content =>
    if stream then
      match ChatCompletionStream_enter c.svc ctx chatType userIdentifier content with
      | (Sum.inl _, s1) => ⟨s1, c.inFlight⟩
      | (Sum.inr r, s1) => ⟨s1, c.inFlight ++ [r]⟩
    else
      match ChatCompletion_enter c.svc ctx chatType userIdentifier content with
      | (Sum.inl _, s1) => ⟨s1, c.inFlight⟩
      | (Sum.inr r, s1) => ⟨s1, c.inFlight ++ [r]⟩
  | Event.switch i =>
    match c.inFlight[i]? with
    | some r =>
      if r.called then c
      else if r.stream then
        ⟨(ChatCompletionStream_switch c.svc r).2,
          c.inFlight.set i (ChatCompletionStream_switch c.svc r).1⟩
      else
        ⟨(ChatCompletion_switch c.svc r).2, c.inFlight.set i (ChatCompletion_switch c.svc r).1⟩
    | none => c
  | Event.tail i =>
    match c.inFlight[i]? with
    | some r =>
      if r.called then
        if r.stream then ⟨(ChatCompletionStream_tail c.svc r).2, c.inFlight.eraseIdx i⟩
        else ⟨(ChatCompletion_tail c.svc r).2, c.inFlight.eraseIdx i⟩
      else c
    | none => c
  | Event.reset t => ⟨reset c.svc t, c.inFlight⟩

def runEvents {σ : Type} (c : Concurrent σ) (events : List Event) : Concurrent σ :=
  events.foldl concStep c

/-- The number of requests of user `u` in flight: those that have passed their
limit check and have not returned.  A request that finds the limit reached
returns within its first part and is never in flight. -/
def pendingFor (u : String) (l : List InFlight) : Nat :=
  l.countP (fun r => decide (r.userIdentifier = u))

/-- The greatest number of requests of user `u` in flight at any moment of the
run of `events` from `c`. -/
def peakFor {σ : Type} (u : String) : Concurrent σ → List Event → Nat
  | c, [] => pendingFor u c.inFlight
  | c, ev :: rest => max (pendingFor u c.inFlight) (peakFor u (concStep c ev) rest)

/-- The invariant of overlapping requests, for user `u` and at most `k` of the
user's requests in flight: the count plus the number of the user's requests in
flight is at most the limit plus `k - 1`. -/
def OverAdmissionBound {σ : Type} (k : Nat) (u : String) (c : Concurrent σ) : Prop :=
  0 ≤ getNum c.svc u ∧
  (0 < pendingFor u c.inFlight → 1 ≤ c.svc.config.EverydayLimit) ∧
  getNum c.svc u + (pendingFor u c.inFlight : Int) + 1 ≤ c.svc.config.EverydayLimit + (k : Int)

/-- One call of `ChatCompletion` running alone. -/
def soloRound (ctx : Context) (chatType : ChatType) (userIdentifier content : String) :
    List Event :=
  [Event.enter false ctx chatType userIdentifier content, Event.switch 0, Event.tail 0]

/-- One call of `ChatCompletionStream` running alone. -/
def soloStreamRound (ctx : Context) (chatType : ChatType) (userIdentifier content : String) :
    List Event :=
  [Event.enter true ctx chatType userIdentifier content, Event.switch 0, Event.tail 0]

/-- Two calls of `ChatCompletion` for `u` that both pass the limit check before
either reaches `addNum`. -/
def raceOfTwo (u : String) : List Event :=
  [Event.enter false bgCtx "chatgpt" u "hello", Event.enter false bgCtx "chatgpt" u "hello",
   Event.switch 0, Event.switch 1, Event.tail 0, Event.tail 0]

/-- Calls of `ChatCompletion` for `u` with the tag `chatgpt`, `n` of them, each
running alone. -/
def soloRounds : Nat → String → List Event
  | 0, _ => []
  | n + 1, u => soloRound bgCtx "chatgpt" u "hello" ++ soloRounds n u

/-! ## Lemmas on the map and on `int` -/

theorem lookup_cons_eq (k a : String) (b : Int) (m : List (String × Int)) :
    List.lookup k ((a, b) :: m) = if k = a then some b else List.lookup k m := by
  by_cases h : k = a
  · subst h
    simp [List.lookup]
  · have hb : (k == a) = false := by simpa using h
    simp [List.lookup, hb, h]

theorem lookup_mapStore (m : List (String × Int)) (k k' : String) (v : Int) :
    (mapStore m k v).lookup k' = if k' = k then some v else m.lookup k' := by
  induction m with
  | nil => simp [mapStore, lookup_cons_eq]
  | cons p rest ih =>
    obtain ⟨a, b⟩ := p
    by_cases hak : a = k
    · subst hak
      by_cases h : k' = a
      · simp [mapStore, lookup_cons_eq, h]
      · simp [mapStore, lookup_cons_eq, h]
    · by_cases h : k' = k
      · subst h
        have hne : ¬ k' = a := fun e => hak e.symm
        simp [mapStore, lookup_cons_eq, hak, hne, ih]
      · simp [mapStore, lookup_cons_eq, hak, h, ih]

theorem wrapInt_of_isInt (x : Int) (h : isInt x) : wrapInt x = x := by
  unfold isInt minInt maxInt at h
  unfold wrapInt
  have h1 : (0 : Int) ≤ x + 2 ^ 63 := by omega
  have h2 : x + 2 ^ 63 < 2 ^ 64 := by omega
  rw [Int.emod_eq_of_lt h1 h2]
  omega

theorem getNum_addNum_self {σ : Type} (s : ChatService σ) (u : String) :
    getNum (addNum s u) u = wrapInt (getNum s u + 1) := by
  simp [getNum, addNum, lookup_mapStore]

theorem getNum_addNum_other {σ : Type} (s : ChatService σ) (u v : String) (h : v ≠ u) :
    getNum (addNum s u) v = getNum s v := by
  simp [getNum, addNum, lookup_mapStore, h]

theorem getNum_congr {σ : Type} (s s' : ChatService σ) (h : s'.userNum = s.userNum)
    (v : String) : getNum s' v = getNum s v := by
  simp [getNum, h]

/-! ## The limit check -/

/-- C1: when the user's count has reached the daily limit, `ChatCompletion`
returns the limit message with `ErrLimit` and the service is left exactly as it
was: no client call is recorded, and the day and every count are unchanged. -/
theorem ChatCompletion_limit_reached {σ : Type} (s : ChatService σ) (ctx : Context)
    (chatType : ChatType) (userIdentifier content : String)
    (h : getNum s userIdentifier ≥ s.config.EverydayLimit) :
    (ChatCompletion s ctx chatType userIdentifier content).1 = (s.limitContent, some ErrLimit) ∧
    (ChatCompletion s ctx chatType userIdentifier content).2 = s ∧
    (ChatCompletion s ctx chatType userIdentifier content).2.calls = s.calls ∧
    (ChatCompletion s ctx chatType userIdentifier content).2.day = s.day ∧
    ∀ v, getNum (ChatCompletion s ctx chatType userIdentifier content).2 v = getNum s v := by
  have e : ChatCompletion s ctx chatType userIdentifier content
      = ((s.limitContent, some ErrLimit), s) := by
    unfold ChatCompletion
    simp [h]
  rw [e]
  simp

theorem ChatCompletion_limit_reached_witness :
    getNum demoFull "u1" ≥ demoFull.config.EverydayLimit ∧
    (ChatCompletion demoFull bgCtx "wenxin" "u1" "again").1
      = ("You've reached the daily limit (3/day). Your quota will be restored tomorrow.",
          some ErrLimit) ∧
    (ChatCompletion demoFull bgCtx "wenxin" "u1" "again").2.calls = demoFull.calls ∧
    getNum (ChatCompletion demoFull bgCtx "wenxin" "u1" "again").2 "u1" = 3 :=
  have h := ChatCompletion_limit_reached demoFull bgCtx "wenxin" "u1" "again" (by decide)
  ⟨by decide, h.1.trans (by decide), h.2.2.1, (h.2.2.2.2 "u1").trans (by decide)⟩

/-! ## Counting successful completions -/

theorem successes_append_one (calls : List Call) (c : Call) (u : String) :
    successes (calls ++ [c]) u = successes calls u + (if succeededFor u c then 1 else 0) := by
  by_cases h : succeededFor u c = true
  · simp [successes, List.filter_append, List.filter_cons, h]
  · simp [successes, List.filter_append, List.filter_cons, h]

theorem CountsMatch_addNum {σ : Type} (s1 : ChatService σ) (u : String) (c : Call)
    (calls : List Call) (n : Int)
    (hc : succeededFor u c = true) (hv : ∀ v, v ≠ u → succeededFor v c = false)
    (hn : n ≤ maxInt) (hlt : getNum s1 u < n)
    (hcalls : s1.calls = calls ++ [c])
    (inv : ∀ v, getNum s1 v = (successes calls v : Int)) :
    CountsMatch (addNum s1 u) := by
  intro v
  have hcl : (addNum s1 u).calls = calls ++ [c] := by simp [addNum, hcalls]
  rw [hcl, successes_append_one]
  by_cases h : v = u
  · subst h
    rw [getNum_addNum_self, wrapInt_of_isInt]
    · simp [hc, inv v]
    · have h0 := inv v
      unfold isInt minInt
      unfold maxInt at *
      constructor <;> omega
  · rw [getNum_addNum_other _ _ _ h, hv v h]
    simp [inv v]

theorem CountsMatch_keep {σ : Type} (s s1 : ChatService σ) (c : Call)
    (hu : s1.userNum = s.userNum) (hcalls : s1.calls = s.calls ++ [c])
    (hc : ∀ v, succeededFor v c = false) (inv : CountsMatch s) : CountsMatch s1 := by
  intro v
  rw [getNum_congr s s1 hu, hcalls, successes_append_one, hc v]
  simpa using inv v

theorem CountsMatch_same {σ : Type} (s s1 : ChatService σ)
    (hu : s1.userNum = s.userNum) (hcalls : s1.calls = s.calls)
    (inv : CountsMatch s) : CountsMatch s1 := by
  intro v
  rw [getNum_congr s s1 hu, hcalls]
  exact inv v

theorem CountsMatch_step {σ : Type} (s : ChatService σ) (ctx : Context)
    (chatType : ChatType) (userIdentifier content : String)
    (hL : isInt s.config.EverydayLimit) (inv : CountsMatch s) :
    CountsMatch (ChatCompletion s ctx chatType userIdentifier content).2 ∧
    (ChatCompletion s ctx chatType userIdentifier content).2.config = s.config := by
  unfold ChatCompletion
  by_cases hlim : getNum s userIdentifier ≥ s.config.EverydayLimit
  · simp [hlim, inv]
  · simp only [hlim, if_false]
    have hlt : getNum s userIdentifier < s.config.EverydayLimit := by omega
    by_cases he : (if chatType = "" then s.config.DefaultChatMode else chatType) = ChatErnieBot
    · simp only [he, if_true]
      generalize s.ernieBot.SendChatCompletion s.ernieState ctx userIdentifier content = r
      obtain ⟨⟨resp, err⟩, st⟩ := r
      cases err with
      | some e =>
        refine ⟨CountsMatch_keep s _ _ rfl rfl ?_ inv, rfl⟩
        intro v
        simp [succeededFor]
      | none =>
        by_cases hresp : resp = ""
        · simp only [hresp, if_true]
          refine ⟨CountsMatch_keep s _ _ rfl rfl ?_ inv, trivial⟩
          intro v
          simp [succeededFor]
        · simp only [hresp, if_false]
          refine ⟨CountsMatch_addNum _ userIdentifier _ s.calls _ ?_ ?_ hL.2 hlt rfl inv, rfl⟩
          · simp [succeededFor, hresp]
          · intro v hv
            simp [succeededFor, Ne.symm hv]
    · simp only [he, if_false]
      by_cases hg : (if chatType = "" then s.config.DefaultChatMode else chatType) = ChatGPT
      · simp only [hg, if_true]
        generalize s.chatGpt.SendChatCompletion s.gptState ctx userIdentifier content = r
        obtain ⟨⟨resp, err⟩, st⟩ := r
        cases err with
        | some e =>
          refine ⟨CountsMatch_keep s _ _ rfl rfl ?_ inv, rfl⟩
          intro v
          simp [succeededFor]
        | none =>
          by_cases hresp : resp = ""
          · simp only [hresp, if_true]
            refine ⟨CountsMatch_keep s _ _ rfl rfl ?_ inv, trivial⟩
            intro v
            simp [succeededFor]
          · simp only [hresp, if_false]
            refine ⟨CountsMatch_addNum _ userIdentifier _ s.calls _ ?_ ?_ hL.2 hlt rfl inv, rfl⟩
            · simp [succeededFor, hresp]
            · intro v hv
              simp [succeededFor, Ne.symm hv]
      · simp only [hg, if_false]
        exact ⟨CountsMatch_same s _ rfl rfl inv, rfl⟩

theorem CountsMatch_serve {σ : Type} (reqs : List Request) (s : ChatService σ)
    (hL : isInt s.config.EverydayLimit) (inv : CountsMatch s) :
    CountsMatch (serve s reqs) := by
  induction reqs generalizing s with
  | nil => simpa [serve] using inv
  | cons r rest ih =>
    have hstep := CountsMatch_step s r.ctx r.chatType r.userIdentifier r.content hL inv
    have hrec := ih (ChatCompletion s r.ctx r.chatType r.userIdentifier r.content).2
      (by rw [hstep.2]; exact hL) hstep.1
    simpa [serve] using hrec

/-- C2: starting from a freshly constructed service and with no reset in
between, after any run of `ChatCompletion` calls the count of every user `u` is
the number of completions for `u` in which the client returned a non-empty text
and a nil error, whatever failed, empty or foreign calls are interleaved. -/
theorem getNum_eq_successes {σ : Type} (init : ChatConfig → ChatConfig) (config : ChatConfig)
    (chatGpt ernieBot : ChatClient σ) (gptState ernieState : σ) (today : Int)
    (reqs : List Request) (u : String)
    (hL : isInt (init config).EverydayLimit) :
    getNum (serve (NewChatService init config chatGpt ernieBot gptState ernieState today) reqs) u
      = (successes
          (serve (NewChatService init config chatGpt ernieBot gptState ernieState today)
            reqs).calls u : Int) := by
  apply CountsMatch_serve
  · exact hL
  · intro v
    simp [NewChatService, getNum, successes]

theorem getNum_eq_successes_witness :
    isInt (3 : Int) ∧
    successes (serve mixed mixedRun).calls "u1" = 3 ∧
    getNum (serve mixed mixedRun) "u1" = 3 ∧
    getNum demoFull "u1" = 3 :=
  ⟨by decide, by decide,
    (getNum_eq_successes id ⟨ChatGPT, 3⟩ (echoClient "hi")
      (failingClient "" ⟨"upstream unavailable"⟩) 0 0 14 mixedRun "u1" (by decide)).trans
      (by decide),
    by decide⟩

/-! ## What a call that passes the limit check returns -/

/-- C3: when the limit check passes and the selected client returns a non-empty
text `r` with a nil error, `ChatCompletion` returns `(r, nil)` and the user's
count becomes its previous value plus one; a user absent from the map ends at
one. -/
theorem ChatCompletion_success {σ : Type} (s : ChatService σ) (ctx : Context)
    (chatType : ChatType) (userIdentifier content r : String)
    (hnum : isInt (getNum s userIdentifier)) (hL : isInt s.config.EverydayLimit)
    (hlim : getNum s userIdentifier < s.config.EverydayLimit)
    (hr : r ≠ "")
    (hsel :
      ((if chatType = "" then s.config.DefaultChatMode else chatType) = ChatErnieBot ∧
        (s.ernieBot.SendChatCompletion s.ernieState ctx userIdentifier content).1 = (r, none)) ∨
      ((if chatType = "" then s.config.DefaultChatMode else chatType) = ChatGPT ∧
        (s.chatGpt.SendChatCompletion s.gptState ctx userIdentifier content).1 = (r, none))) :
    (ChatCompletion s ctx chatType userIdentifier content).1 = (r, none) ∧
    getNum (ChatCompletion s ctx chatType userIdentifier content).2 userIdentifier
      = getNum s userIdentifier + 1 ∧
    (s.userNum.lookup userIdentifier = none →
      getNum (ChatCompletion s ctx chatType userIdentifier content).2 userIdentifier = 1) := by
  have hnl : ¬ getNum s userIdentifier ≥ s.config.EverydayLimit := by omega
  have hw : wrapInt (getNum s userIdentifier + 1) = getNum s userIdentifier + 1 := by
    apply wrapInt_of_isInt
    unfold isInt minInt maxInt at *
    constructor <;> omega
  have h0 : s.userNum.lookup userIdentifier = none → getNum s userIdentifier = 0 := by
    intro h
    simp [getNum, h]
  have key : (ChatCompletion s ctx chatType userIdentifier content).1 = (r, none) ∧
      getNum (ChatCompletion s ctx chatType userIdentifier content).2 userIdentifier
        = getNum s userIdentifier + 1 := by
    unfold ChatCompletion
    simp only [hnl, if_false]
    rcases hsel with ⟨ht, hp⟩ | ⟨ht, hp⟩
    · simp only [ht, if_true]
      generalize s.ernieBot.SendChatCompletion s.ernieState ctx userIdentifier content = q at hp
      obtain ⟨⟨resp, err⟩, st⟩ := q
      simp only [Prod.mk.injEq] at hp
      obtain ⟨rfl, rfl⟩ := hp
      simp only [hr, if_false]
      refine ⟨trivial, ?_⟩
      rw [getNum_addNum_self]
      exact hw
    · have hne : ¬ (ChatGPT = ChatErnieBot) := by decide
      simp only [ht, hne, if_true, if_false]
      generalize s.chatGpt.SendChatCompletion s.gptState ctx userIdentifier content = q at hp
      obtain ⟨⟨resp, err⟩, st⟩ := q
      simp only [Prod.mk.injEq] at hp
      obtain ⟨rfl, rfl⟩ := hp
      simp only [hr, if_false]
      refine ⟨trivial, ?_⟩
      rw [getNum_addNum_self]
      exact hw
  refine ⟨key.1, key.2, ?_⟩
  intro h
  rw [key.2, h0 h]
  rfl

theorem ChatCompletion_success_witness :
    (ChatCompletion demo bgCtx "" "u1" "hello").1 = ("hi", none) ∧
    getNum (ChatCompletion demo bgCtx "" "u1" "hello").2 "u1" = getNum demo "u1" + 1 ∧
    getNum (ChatCompletion demo bgCtx "" "u1" "hello").2 "u1" = 1 :=
  have h := ChatCompletion_success demo bgCtx "" "u1" "hello" "hi"
    (by decide) (by decide) (by decide) (by decide) (Or.inr ⟨by decide, by decide⟩)
  ⟨h.1, h.2.1, h.2.2 (by decide)⟩

/-- C4: when the limit check passes and the selected client returns a non-nil
error `e`, with any text next to it, `ChatCompletion` returns
`("Get response failed.", e)` and the day and every count are unchanged. -/
theorem ChatCompletion_provider_error {σ : Type} (s : ChatService σ) (ctx : Context)
    (chatType : ChatType) (userIdentifier content t : String) (e : GoError)
    (hlim : getNum s userIdentifier < s.config.EverydayLimit)
    (hsel :
      ((if chatType = "" then s.config.DefaultChatMode else chatType) = ChatErnieBot ∧
        (s.ernieBot.SendChatCompletion s.ernieState ctx userIdentifier content).1
          = (t, some e)) ∨
      ((if chatType = "" then s.config.DefaultChatMode else chatType) = ChatGPT ∧
        (s.chatGpt.SendChatCompletion s.gptState ctx userIdentifier content).1
          = (t, some e))) :
    (ChatCompletion s ctx chatType userIdentifier content).1 = ("Get response failed.", some e) ∧
    (ChatCompletion s ctx chatType userIdentifier content).2.day = s.day ∧
    (ChatCompletion s ctx chatType userIdentifier content).2.userNum = s.userNum ∧
    ∀ v, getNum (ChatCompletion s ctx chatType userIdentifier content).2 v = getNum s v := by
  have hnl : ¬ getNum s userIdentifier ≥ s.config.EverydayLimit := by omega
  have key : (ChatCompletion s ctx chatType userIdentifier content).1
        = ("Get response failed.", some e) ∧
      (ChatCompletion s ctx chatType userIdentifier content).2.day = s.day ∧
      (ChatCompletion s ctx chatType userIdentifier content).2.userNum = s.userNum := by
    unfold ChatCompletion
    simp only [hnl, if_false]
    rcases hsel with ⟨ht, hp⟩ | ⟨ht, hp⟩
    · simp only [ht, if_true]
      generalize s.ernieBot.SendChatCompletion s.ernieState ctx userIdentifier content = q at hp
      obtain ⟨⟨resp, err⟩, st⟩ := q
      simp only [Prod.mk.injEq] at hp
      obtain ⟨rfl, rfl⟩ := hp
      simp [responseErr, responseEmpty]
    · have hne : ¬ (ChatGPT = ChatErnieBot) := by decide
      simp only [ht, hne, if_true, if_false]
      generalize s.chatGpt.SendChatCompletion s.gptState ctx userIdentifier content = q at hp
      obtain ⟨⟨resp, err⟩, st⟩ := q
      simp only [Prod.mk.injEq] at hp
      obtain ⟨rfl, rfl⟩ := hp
      simp [responseErr, responseEmpty]
  exact ⟨key.1, key.2.1, key.2.2, fun v => getNum_congr s _ key.2.2 v⟩

theorem ChatCompletion_provider_error_witness :
    (ChatCompletion mixed bgCtx "wenxin" "u1" "hello").1
      = ("Get response failed.", some ⟨"upstream unavailable"⟩) ∧
    (ChatCompletion mixed bgCtx "wenxin" "u1" "hello").2.userNum = [] ∧
    getNum (ChatCompletion mixed bgCtx "wenxin" "u1" "hello").2 "u1" = 0 :=
  have h := ChatCompletion_provider_error mixed bgCtx "wenxin" "u1" "hello" ""
    ⟨"upstream unavailable"⟩ (by decide) (Or.inl ⟨by decide, by decide⟩)
  ⟨h.1, h.2.2.1, h.2.2.2 "u1"⟩

/-- C5: when the limit check passes and the selected client returns the empty
text with a nil error, `ChatCompletion` returns `("Get response empty.", nil)`
and the day and every count are unchanged. -/
theorem ChatCompletion_provider_empty {σ : Type} (s : ChatService σ) (ctx : Context)
    (chatType : ChatType) (userIdentifier content : String)
    (hlim : getNum s userIdentifier < s.config.EverydayLimit)
    (hsel :
      ((if chatType = "" then s.config.DefaultChatMode else chatType) = ChatErnieBot ∧
        (s.ernieBot.SendChatCompletion s.ernieState ctx userIdentifier content).1
          = ("", none)) ∨
      ((if chatType = "" then s.config.DefaultChatMode else chatType) = ChatGPT ∧
        (s.chatGpt.SendChatCompletion s.gptState ctx userIdentifier content).1
          = ("", none))) :
    (ChatCompletion s ctx chatType userIdentifier content).1 = ("Get response empty.", none) ∧
    (ChatCompletion s ctx chatType userIdentifier content).2.day = s.day ∧
    (ChatCompletion s ctx chatType userIdentifier content).2.userNum = s.userNum ∧
    ∀ v, getNum (ChatCompletion s ctx chatType userIdentifier content).2 v = getNum s v := by
  have hnl : ¬ getNum s userIdentifier ≥ s.config.EverydayLimit := by omega
  have key : (ChatCompletion s ctx chatType userIdentifier content).1
        = ("Get response empty.", none) ∧
      (ChatCompletion s ctx chatType userIdentifier content).2.day = s.day ∧
      (ChatCompletion s ctx chatType userIdentifier content).2.userNum = s.userNum := by
    unfold ChatCompletion
    simp only [hnl, if_false]
    rcases hsel with ⟨ht, hp⟩ | ⟨ht, hp⟩
    · simp only [ht, if_true]
      generalize s.ernieBot.SendChatCompletion s.ernieState ctx userIdentifier content = q at hp
      obtain ⟨⟨resp, err⟩, st⟩ := q
      simp only [Prod.mk.injEq] at hp
      obtain ⟨rfl, rfl⟩ := hp
      simp [responseErr, responseEmpty]
    · have hne : ¬ (ChatGPT = ChatErnieBot) := by decide
      simp only [ht, hne, if_true, if_false]
      generalize s.chatGpt.SendChatCompletion s.gptState ctx userIdentifier content = q at hp
      obtain ⟨⟨resp, err⟩, st⟩ := q
      simp only [Prod.mk.injEq] at hp
      obtain ⟨rfl, rfl⟩ := hp
      simp [responseErr, responseEmpty]
  exact ⟨key.1, key.2.1, key.2.2, fun v => getNum_congr s _ key.2.2 v⟩

theorem ChatCompletion_provider_empty_witness :
    (ChatCompletion (demoService 3 (echoClient "") (echoClient "")) bgCtx "chatgpt" "u1" "hello").1
      = ("Get response empty.", none) ∧
    getNum (ChatCompletion (demoService 3 (echoClient "") (echoClient "")) bgCtx "chatgpt" "u1"
      "hello").2 "u1" = 0 :=
  have h := ChatCompletion_provider_empty (demoService 3 (echoClient "") (echoClient ""))
    bgCtx "chatgpt" "u1" "hello" (by decide) (Or.inr ⟨by decide, by decide⟩)
  ⟨h.1, h.2.2.2 "u1"⟩

/-! ## Day rollover -/

/-- C6: when the current day differs from the stored day, `reset` stores the
current day, empties the counts so that every user reads zero, and calls `Reset`
once on the `chatGpt` client and once on the `ernieBot` client, and nothing
else; when the current day is the stored day it changes nothing and calls no
client. -/
theorem reset_spec {σ : Type} (s : ChatService σ) (t : Int) :
    (s.day ≠ t →
      (reset s t).day = t ∧
      (reset s t).userNum = [] ∧
      (∀ u, getNum (reset s t) u = 0) ∧
      (reset s t).calls = s.calls ++ [Call.Reset Client.chatGpt, Call.Reset Client.ernieBot] ∧
      (reset s t).gptState = s.chatGpt.Reset s.gptState ∧
      (reset s t).ernieState = s.ernieBot.Reset s.ernieState) ∧
    (s.day = t → reset s t = s ∧ (reset s t).calls = s.calls) := by
  constructor
  · intro h
    simp [reset, h, getNum]
  · intro h
    simp [reset, h]

theorem reset_spec_witness :
    demoFull.day ≠ 15 ∧ getNum demoFull "u1" = 3 ∧
    (reset demoFull 15).day = 15 ∧
    getNum (reset demoFull 15) "u1" = 0 ∧
    (reset demoFull 15).calls
      = demoFull.calls ++ [Call.Reset Client.chatGpt, Call.Reset Client.ernieBot] ∧
    (reset demoFull 15).gptState = 0 ∧
    demoFull.day = 14 ∧
    reset demoFull 14 = demoFull :=
  have h1 := (reset_spec demoFull 15).1 (by decide)
  have h2 := (reset_spec demoFull 14).2 (by decide)
  ⟨by decide, by decide, h1.1, h1.2.2.1 "u1", h1.2.2.2.1, h1.2.2.2.2.1, by decide, h2.1⟩

/-- C7: `reset` is idempotent within a day: a second `reset` with the same
current day gives the state the first one gave, and records no further client
call. -/
theorem reset_idempotent {σ : Type} (s : ChatService σ) (d : Int) :
    reset (reset s d) d = reset s d ∧
    (reset (reset s d) d).calls = (reset s d).calls := by
  have h : (reset s d).day = d := by
    by_cases hd : s.day = d
    · simp [reset, hd]
    · simp [reset, hd]
  have e : reset (reset s d) d = reset s d := by
    generalize reset s d = s1 at h
    simp [reset, h]
  exact ⟨e, by rw [e]⟩

/-! ## Provider selection -/

theorem resolve_of_selects (default chatType tag : ChatType) (htag : tag ≠ "")
    (h : chatType = tag ∨ (chatType = "" ∧ default = tag)) :
    (if chatType = "" then default else chatType) = tag := by
  rcases h with rfl | ⟨rfl, rfl⟩
  · simp [htag]
  · simp

theorem ChatCompletion_dispatch_chatGpt {σ : Type} (s : ChatService σ) (ctx : Context)
    (chatType : ChatType) (userIdentifier content : String)
    (hlim : getNum s userIdentifier < s.config.EverydayLimit)
    (ht : (if chatType = "" then s.config.DefaultChatMode else chatType) = ChatGPT) :
    (ChatCompletion s ctx chatType userIdentifier content).2.calls
      = s.calls ++ [Call.SendChatCompletion Client.chatGpt ctx userIdentifier content
          (s.chatGpt.SendChatCompletion s.gptState ctx userIdentifier content).1.1
          (s.chatGpt.SendChatCompletion s.gptState ctx userIdentifier content).1.2] ∧
    (ChatCompletion s ctx chatType userIdentifier content).2.gptState
      = (s.chatGpt.SendChatCompletion s.gptState ctx userIdentifier content).2 ∧
    (ChatCompletion s ctx chatType userIdentifier content).2.ernieState = s.ernieState := by
  have hnl : ¬ getNum s userIdentifier ≥ s.config.EverydayLimit := by omega
  have hne : ¬ (ChatGPT = ChatErnieBot) := by decide
  unfold ChatCompletion
  simp only [hnl, ht, hne, if_true, if_false]
  generalize s.chatGpt.SendChatCompletion s.gptState ctx userIdentifier content = q
  obtain ⟨⟨resp, err⟩, st⟩ := q
  cases err with
  | some e => simp
  | none =>
    by_cases hresp : resp = ""
    · simp [hresp]
    · simp [hresp, addNum]

theorem ChatCompletion_dispatch_ernieBot {σ : Type} (s : ChatService σ) (ctx : Context)
    (chatType : ChatType) (userIdentifier content : String)
    (hlim : getNum s userIdentifier < s.config.EverydayLimit)
    (ht : (if chatType = "" then s.config.DefaultChatMode else chatType) = ChatErnieBot) :
    (ChatCompletion s ctx chatType userIdentifier content).2.calls
      = s.calls ++ [Call.SendChatCompletion Client.ernieBot ctx userIdentifier content
          (s.ernieBot.SendChatCompletion s.ernieState ctx userIdentifier content).1.1
          (s.ernieBot.SendChatCompletion s.ernieState ctx userIdentifier content).1.2] ∧
    (ChatCompletion s ctx chatType userIdentifier content).2.ernieState
      = (s.ernieBot.SendChatCompletion s.ernieState ctx userIdentifier content).2 ∧
    (ChatCompletion s ctx chatType userIdentifier content).2.gptState = s.gptState := by
  have hnl : ¬ getNum s userIdentifier ≥ s.config.EverydayLimit := by omega
  unfold ChatCompletion
  simp only [hnl, ht, if_true, if_false]
  generalize s.ernieBot.SendChatCompletion s.ernieState ctx userIdentifier content = q
  obtain ⟨⟨resp, err⟩, st⟩ := q
  cases err with
  | some e => simp
  | none =>
    by_cases hresp : resp = ""
    · simp [hresp]
    · simp [hresp, addNum]

theorem ChatCompletionStream_dispatch_chatGpt {σ : Type} (s : ChatService σ) (ctx : Context)
    (chatType : ChatType) (userIdentifier content : String)
    (hlim : getNum s userIdentifier < s.config.EverydayLimit)
    (ht : (if chatType = "" then s.config.DefaultChatMode else chatType) = ChatGPT) :
    (ChatCompletionStream s ctx chatType userIdentifier content).2.calls
      = s.calls ++ [Call.SendChatCompletionStream Client.chatGpt ctx userIdentifier content
          (s.chatGpt.SendChatCompletionStream s.gptState ctx userIdentifier content).1.1
          (s.chatGpt.SendChatCompletionStream s.gptState ctx userIdentifier content).1.2] ∧
    (ChatCompletionStream s ctx chatType userIdentifier content).2.gptState
      = (s.chatGpt.SendChatCompletionStream s.gptState ctx userIdentifier content).2 ∧
    (ChatCompletionStream s ctx chatType userIdentifier content).2.ernieState = s.ernieState := by
  have hnl : ¬ getNum s userIdentifier ≥ s.config.EverydayLimit := by omega
  have hne : ¬ (ChatGPT = ChatErnieBot) := by decide
  unfold ChatCompletionStream
  simp only [hnl, ht, hne, if_true, if_false]
  generalize s.chatGpt.SendChatCompletionStream s.gptState ctx userIdentifier content = q
  obtain ⟨⟨stream, err⟩, st⟩ := q
  cases err with
  | some e => simp
  | none => simp [addNum]

theorem ChatCompletionStream_dispatch_ernieBot {σ : Type} (s : ChatService σ) (ctx : Context)
    (chatType : ChatType) (userIdentifier content : String)
    (hlim : getNum s userIdentifier < s.config.EverydayLimit)
    (ht : (if chatType = "" then s.config.DefaultChatMode else chatType) = ChatErnieBot) :
    (ChatCompletionStream s ctx chatType userIdentifier content).2.calls
      = s.calls ++ [Call.SendChatCompletionStream Client.ernieBot ctx userIdentifier content
          (s.ernieBot.SendChatCompletionStream s.ernieState ctx userIdentifier content).1.1
          (s.ernieBot.SendChatCompletionStream s.ernieState ctx userIdentifier content).1.2] ∧
    (ChatCompletionStream s ctx chatType userIdentifier content).2.ernieState
      = (s.ernieBot.SendChatCompletionStream s.ernieState ctx userIdentifier content).2 ∧
    (ChatCompletionStream s ctx chatType userIdentifier content).2.gptState = s.gptState := by
  have hnl : ¬ getNum s userIdentifier ≥ s.config.EverydayLimit := by omega
  unfold ChatCompletionStream
  simp only [hnl, ht, if_true, if_false]
  generalize s.ernieBot.SendChatCompletionStream s.ernieState ctx userIdentifier content = q
  obtain ⟨⟨stream, err⟩, st⟩ := q
  cases err with
  | some e => simp
  | none => simp [addNum]

theorem ChatCompletion_logger {σ : Type} (s : ChatService σ) (ctx : Context)
    (chatType : ChatType) (userIdentifier content : String)
    (hlim : getNum s userIdentifier < s.config.EverydayLimit) :
    (ChatCompletion s ctx chatType userIdentifier content).2.logger
      = s.logger ++ [⟨some (if chatType = "" then s.config.DefaultChatMode else chatType),
          userIdentifier, "receive content:" ++ content⟩] := by
  have hnl : ¬ getNum s userIdentifier ≥ s.config.EverydayLimit := by omega
  unfold ChatCompletion
  simp only [hnl, if_false]
  split <;> split_ifs <;> simp [addNum]

theorem ChatCompletion_nonempty_tag {σ : Type} (s : ChatService σ) (ctx : Context)
    (chatType : ChatType) (userIdentifier content : String) (d : ChatType)
    (h : chatType ≠ "") :
    (ChatCompletion { s with config := ⟨d, s.config.EverydayLimit⟩ } ctx chatType
        userIdentifier content).1
      = (ChatCompletion s ctx chatType userIdentifier content).1 ∧
    (ChatCompletion { s with config := ⟨d, s.config.EverydayLimit⟩ } ctx chatType
        userIdentifier content).2.calls
      = (ChatCompletion s ctx chatType userIdentifier content).2.calls := by
  unfold ChatCompletion
  simp only [h, if_false]
  have hg : getNum { s with config := ⟨d, s.config.EverydayLimit⟩ } userIdentifier
      = getNum s userIdentifier := rfl
  rw [hg]
  by_cases hlim : getNum s userIdentifier ≥ s.config.EverydayLimit
  · simp [hlim]
  · simp only [hlim, if_false]
    by_cases he : chatType = ChatErnieBot
    · simp only [he, if_true]
      generalize s.ernieBot.SendChatCompletion s.ernieState ctx userIdentifier content = q
      obtain ⟨⟨resp, err⟩, st⟩ := q
      cases err with
      | some e => simp
      | none =>
        by_cases hresp : resp = ""
        · simp [hresp]
        · simp [hresp, addNum]
    · simp only [he, if_false]
      by_cases hgpt : chatType = ChatGPT
      · simp only [hgpt, if_true]
        generalize s.chatGpt.SendChatCompletion s.gptState ctx userIdentifier content = q
        obtain ⟨⟨resp, err⟩, st⟩ := q
        cases err with
        | some e => simp
        | none =>
          by_cases hresp : resp = ""
          · simp [hresp]
          · simp [hresp, addNum]
      · simp [hgpt]

theorem ChatCompletionStream_nonempty_tag {σ : Type} (s : ChatService σ) (ctx : Context)
    (chatType : ChatType) (userIdentifier content : String) (d : ChatType)
    (h : chatType ≠ "") :
    (ChatCompletionStream { s with config := ⟨d, s.config.EverydayLimit⟩ } ctx chatType
        userIdentifier content).1
      = (ChatCompletionStream s ctx chatType userIdentifier content).1 ∧
    (ChatCompletionStream { s with config := ⟨d, s.config.EverydayLimit⟩ } ctx chatType
        userIdentifier content).2.calls
      = (ChatCompletionStream s ctx chatType userIdentifier content).2.calls := by
  unfold ChatCompletionStream
  simp only [h, if_false]
  have hg : getNum { s with config := ⟨d, s.config.EverydayLimit⟩ } userIdentifier
      = getNum s userIdentifier := rfl
  rw [hg]
  by_cases hlim : getNum s userIdentifier ≥ s.config.EverydayLimit
  · simp [hlim]
  · simp only [hlim, if_false]
    by_cases he : chatType = ChatErnieBot
    · simp only [he, if_true]
      generalize s.ernieBot.SendChatCompletionStream s.ernieState ctx userIdentifier content = q
      obtain ⟨⟨stream, err⟩, st⟩ := q
      cases err with
      | some e => simp
      | none => simp [addNum]
    · simp only [he, if_false]
      by_cases hgpt : chatType = ChatGPT
      · simp only [hgpt, if_true]
        generalize s.chatGpt.SendChatCompletionStream s.gptState ctx userIdentifier content = q
        obtain ⟨⟨stream, err⟩, st⟩ := q
        cases err with
        | some e => simp
        | none => simp [addNum]
      · simp [hgpt, addNum]

theorem ChatCompletion_empty_tag {σ : Type} (s : ChatService σ) (ctx : Context)
    (userIdentifier content : String) :
    ChatCompletion s ctx "" userIdentifier content
      = ChatCompletion s ctx s.config.DefaultChatMode userIdentifier content := by
  unfold ChatCompletion
  simp

theorem ChatCompletionStream_empty_tag {σ : Type} (s : ChatService σ) (ctx : Context)
    (userIdentifier content : String) :
    ChatCompletionStream s ctx "" userIdentifier content
      = ChatCompletionStream s ctx s.config.DefaultChatMode userIdentifier content := by
  unfold ChatCompletionStream
  simp

/-- C8: provider selection in `ChatCompletion` and `ChatCompletionStream`.  An
empty tag behaves as `config.DefaultChatMode`; a non-empty tag is used as given,
whatever the default is; the tag `chatgpt` sends exactly one call, to the
`chatGpt` client, and leaves the `ernieBot` client alone, and the tag `wenxin`
does the converse. -/
theorem provider_selection {σ : Type} (s : ChatService σ) (ctx : Context)
    (chatType : ChatType) (userIdentifier content : String)
    (hlim : getNum s userIdentifier < s.config.EverydayLimit) :
    (ChatCompletion s ctx "" userIdentifier content
        = ChatCompletion s ctx s.config.DefaultChatMode userIdentifier content ∧
      ChatCompletionStream s ctx "" userIdentifier content
        = ChatCompletionStream s ctx s.config.DefaultChatMode userIdentifier content) ∧
    (chatType ≠ "" →
      (ChatCompletion s ctx chatType userIdentifier content).2.logger
        = s.logger ++ [⟨some chatType, userIdentifier, "receive content:" ++ content⟩] ∧
      ∀ d : ChatType,
        (ChatCompletion { s with config := ⟨d, s.config.EverydayLimit⟩ } ctx chatType
            userIdentifier content).1
          = (ChatCompletion s ctx chatType userIdentifier content).1 ∧
        (ChatCompletion { s with config := ⟨d, s.config.EverydayLimit⟩ } ctx chatType
            userIdentifier content).2.calls
          = (ChatCompletion s ctx chatType userIdentifier content).2.calls ∧
        (ChatCompletionStream { s with config := ⟨d, s.config.EverydayLimit⟩ } ctx chatType
            userIdentifier content).1
          = (ChatCompletionStream s ctx chatType userIdentifier content).1 ∧
        (ChatCompletionStream { s with config := ⟨d, s.config.EverydayLimit⟩ } ctx chatType
            userIdentifier content).2.calls
          = (ChatCompletionStream s ctx chatType userIdentifier content).2.calls) ∧
    ((chatType = "chatgpt" ∨ (chatType = "" ∧ s.config.DefaultChatMode = "chatgpt")) →
      (ChatCompletion s ctx chatType userIdentifier content).2.calls
        = s.calls ++ [Call.SendChatCompletion Client.chatGpt ctx userIdentifier content
            (s.chatGpt.SendChatCompletion s.gptState ctx userIdentifier content).1.1
            (s.chatGpt.SendChatCompletion s.gptState ctx userIdentifier content).1.2] ∧
      (ChatCompletion s ctx chatType userIdentifier content).2.ernieState = s.ernieState ∧
      (ChatCompletionStream s ctx chatType userIdentifier content).2.calls
        = s.calls ++ [Call.SendChatCompletionStream Client.chatGpt ctx userIdentifier content
            (s.chatGpt.SendChatCompletionStream s.gptState ctx userIdentifier content).1.1
            (s.chatGpt.SendChatCompletionStream s.gptState ctx userIdentifier content).1.2] ∧
      (ChatCompletionStream s ctx chatType userIdentifier content).2.ernieState
        = s.ernieState) ∧
    ((chatType = "wenxin" ∨ (chatType = "" ∧ s.config.DefaultChatMode = "wenxin")) →
      (ChatCompletion s ctx chatType userIdentifier content).2.calls
        = s.calls ++ [Call.SendChatCompletion Client.ernieBot ctx userIdentifier content
            (s.ernieBot.SendChatCompletion s.ernieState ctx userIdentifier content).1.1
            (s.ernieBot.SendChatCompletion s.ernieState ctx userIdentifier content).1.2] ∧
      (ChatCompletion s ctx chatType userIdentifier content).2.gptState = s.gptState ∧
      (ChatCompletionStream s ctx chatType userIdentifier content).2.calls
        = s.calls ++ [Call.SendChatCompletionStream Client.ernieBot ctx userIdentifier content
            (s.ernieBot.SendChatCompletionStream s.ernieState ctx userIdentifier content).1.1
            (s.ernieBot.SendChatCompletionStream s.ernieState ctx userIdentifier content).1.2] ∧
      (ChatCompletionStream s ctx chatType userIdentifier content).2.gptState
        = s.gptState) := by
  refine ⟨⟨ChatCompletion_empty_tag s ctx userIdentifier content,
    ChatCompletionStream_empty_tag s ctx userIdentifier content⟩, ?_, ?_, ?_⟩
  · intro h
    refine ⟨?_, ?_⟩
    · have hl := ChatCompletion_logger s ctx chatType userIdentifier content hlim
      simpa [h] using hl
    · intro d
      have h1 := ChatCompletion_nonempty_tag s ctx chatType userIdentifier content d h
      have h2 := ChatCompletionStream_nonempty_tag s ctx chatType userIdentifier content d h
      exact ⟨h1.1, h1.2, h2.1, h2.2⟩
  · intro h
    have ht := resolve_of_selects s.config.DefaultChatMode chatType ChatGPT (by decide) h
    have h1 := ChatCompletion_dispatch_chatGpt s ctx chatType userIdentifier content hlim ht
    have h2 := ChatCompletionStream_dispatch_chatGpt s ctx chatType userIdentifier content hlim ht
    exact ⟨h1.1, h1.2.2, h2.1, h2.2.2⟩
  · intro h
    have ht := resolve_of_selects s.config.DefaultChatMode chatType ChatErnieBot (by decide) h
    have h1 := ChatCompletion_dispatch_ernieBot s ctx chatType userIdentifier content hlim ht
    have h2 := ChatCompletionStream_dispatch_ernieBot s ctx chatType userIdentifier content hlim ht
    exact ⟨h1.1, h1.2.2, h2.1, h2.2.2⟩

theorem provider_selection_witness :
    demo.config.DefaultChatMode = "chatgpt" ∧
    (ChatCompletion demo bgCtx "" "u1" "hello").2.calls
      = [Call.SendChatCompletion Client.chatGpt bgCtx "u1" "hello" "hi" none] ∧
    (ChatCompletion demo bgCtx "" "u1" "hello").2.ernieState = demo.ernieState ∧
    (ChatCompletionStream demo bgCtx "" "u1" "hello").2.calls
      = [Call.SendChatCompletionStream Client.chatGpt bgCtx "u1" "hello"
          (some ⟨["hi"], none⟩) none] ∧
    (ChatCompletion demo bgCtx "wenxin" "u1" "hello").2.calls
      = [Call.SendChatCompletion Client.ernieBot bgCtx "u1" "hello" "ni hao" none] ∧
    (ChatCompletion demo bgCtx "wenxin" "u1" "hello").2.logger
      = [⟨some "wenxin", "u1", "receive content:hello"⟩] :=
  have h := (provider_selection demo bgCtx "" "u1" "hello" (by decide)).2.2.1
    (Or.inr ⟨rfl, by decide⟩)
  have hw := provider_selection demo bgCtx "wenxin" "u1" "hello" (by decide)
  have hw1 := hw.2.2.2 (Or.inl rfl)
  have hw2 := hw.2.1 (by decide)
  ⟨by decide, h.1.trans (by decide), h.2.1, h.2.2.1.trans (by decide),
    hw1.1.trans (by decide), hw2.1.trans (by decide)⟩

/-- C9: when the limit check passes and the resolved tag is neither `chatgpt`
nor `wenxin`, `ChatCompletion` calls no client, returns
`("Get response empty.", nil)`, and leaves the day and every count unchanged. -/
theorem ChatCompletion_unknown_tag {σ : Type} (s : ChatService σ) (ctx : Context)
    (chatType : ChatType) (userIdentifier content : String)
    (hlim : getNum s userIdentifier < s.config.EverydayLimit)
    (hg : (if chatType = "" then s.config.DefaultChatMode else chatType) ≠ "chatgpt")
    (he : (if chatType = "" then s.config.DefaultChatMode else chatType) ≠ "wenxin") :
    (ChatCompletion s ctx chatType userIdentifier content).1 = ("Get response empty.", none) ∧
    (ChatCompletion s ctx chatType userIdentifier content).2.calls = s.calls ∧
    (ChatCompletion s ctx chatType userIdentifier content).2.gptState = s.gptState ∧
    (ChatCompletion s ctx chatType userIdentifier content).2.ernieState = s.ernieState ∧
    (ChatCompletion s ctx chatType userIdentifier content).2.day = s.day ∧
    (ChatCompletion s ctx chatType userIdentifier content).2.userNum = s.userNum ∧
    ∀ v, getNum (ChatCompletion s ctx chatType userIdentifier content).2 v = getNum s v := by
  have hnl : ¬ getNum s userIdentifier ≥ s.config.EverydayLimit := by omega
  have hg' : ¬ (if chatType = "" then s.config.DefaultChatMode else chatType) = ChatGPT := hg
  have he' : ¬ (if chatType = "" then s.config.DefaultChatMode else chatType) = ChatErnieBot := he
  have key : ChatCompletion s ctx chatType userIdentifier content
      = (("Get response empty.", none), { s with
          logger := s.logger ++
            [⟨some (if chatType = "" then s.config.DefaultChatMode else chatType),
              userIdentifier, "receive content:" ++ content⟩] }) := by
    unfold ChatCompletion
    simp only [hnl, hg', he', if_false]
    simp [responseEmpty]
  rw [key]
  exact ⟨rfl, rfl, rfl, rfl, rfl, rfl, fun v => rfl⟩

theorem ChatCompletion_unknown_tag_witness :
    (ChatCompletion demo bgCtx "bard" "u1" "hello").1 = ("Get response empty.", none) ∧
    (ChatCompletion demo bgCtx "bard" "u1" "hello").2.calls = [] ∧
    getNum (ChatCompletion demo bgCtx "bard" "u1" "hello").2 "u1" = 0 ∧
    (ChatCompletion (NewChatService id ⟨"", 3⟩ (echoClient "hi") (echoClient "ni hao") 0 0 14)
      bgCtx "" "u1" "hello").1 = ("Get response empty.", none) :=
  have h := ChatCompletion_unknown_tag demo bgCtx "bard" "u1" "hello"
    (by decide) (by decide) (by decide)
  have h2 := ChatCompletion_unknown_tag
    (NewChatService id ⟨"", 3⟩ (echoClient "hi") (echoClient "ni hao") 0 0 14)
    bgCtx "" "u1" "hello" (by decide) (by decide) (by decide)
  ⟨h.1, h.2.1, h.2.2.2.2.2.2 "u1", h2.1⟩

/-! ## The limit check of the streaming path -/

theorem limitContent_text (n : Int) :
    Sprintf "You've reached the daily limit (%d/day). Your quota will be restored tomorrow." [n]
      = "You've reached the daily limit (" ++ toString n
          ++ "/day). Your quota will be restored tomorrow." := by
  rfl

theorem streamLimit_text (n : Int) :
    Sprintf "you've reached the daily limit (%d/day). Your quota will be restored tomorrow" [n]
      = "you've reached the daily limit (" ++ toString n
          ++ "/day). Your quota will be restored tomorrow" := by
  rfl

theorem NewChatService_limitContent {σ : Type} (init : ChatConfig → ChatConfig)
    (config : ChatConfig) (chatGpt ernieBot : ChatClient σ) (gptState ernieState : σ)
    (today : Int) :
    (NewChatService init config chatGpt ernieBot gptState ernieState today).limitContent
      = "You've reached the daily limit (" ++ toString (init config).EverydayLimit
          ++ "/day). Your quota will be restored tomorrow." := by
  rfl

theorem streamLimit_ne_limitContent (n : Int) :
    Sprintf "you've reached the daily limit (%d/day). Your quota will be restored tomorrow" [n]
      ≠ Sprintf "You've reached the daily limit (%d/day). Your quota will be restored tomorrow."
          [n] := by
  intro h
  have h2 : some 'y' = some 'Y' := congrArg (fun t : String => t.data.head?) h
  exact absurd h2 (by decide)

theorem streamLimit_ne_ErrLimit (n : Int) :
    Errorf "you've reached the daily limit (%d/day). Your quota will be restored tomorrow" [n]
      ≠ ErrLimit := by
  intro h
  have h2 : some 'y' = some 'r' := congrArg (fun e : GoError => e.text.data.head?) h
  exact absurd h2 (by decide)

/-- C10 as stated fails: on the service with limit 3 and three completions
charged to `u1`, the error of `ChatCompletionStream` reads
`you've reached the daily limit (3/day). Your quota will be restored tomorrow`,
which is not the limit message `ChatCompletion` returns. -/
theorem ChatCompletionStream_limit_text_counterexample :
    getNum demoFull "u1" ≥ demoFull.config.EverydayLimit ∧
    (ChatCompletionStream demoFull bgCtx "" "u1" "again").1
      = (none, some
          ⟨"you've reached the daily limit (3/day). Your quota will be restored tomorrow"⟩) ∧
    (ChatCompletion demoFull bgCtx "" "u1" "again").1
      = ("You've reached the daily limit (3/day). Your quota will be restored tomorrow.",
          some ErrLimit) ∧
    ¬ (∃ e, (ChatCompletionStream demoFull bgCtx "" "u1" "again").1.2 = some e ∧
        e.text = (ChatCompletion demoFull bgCtx "" "u1" "again").1.1) := by
  refine ⟨by decide, by decide, by decide, ?_⟩
  rintro ⟨e, h1, h2⟩
  have h3 : (ChatCompletionStream demoFull bgCtx "" "u1" "again").1.2
      = some ⟨"you've reached the daily limit (3/day). Your quota will be restored tomorrow"⟩ := by
    decide
  have h4 : (ChatCompletion demoFull bgCtx "" "u1" "again").1.1
      = "You've reached the daily limit (3/day). Your quota will be restored tomorrow." := by
    decide
  rw [h3] at h1
  rw [h4] at h2
  have h5 := Option.some.inj h1
  rw [← h5] at h2
  exact absurd h2 (by decide)

/-- C10, amended: when the user's count has reached the daily limit,
`ChatCompletionStream` returns a nil stream and an error that is not `ErrLimit`
and whose text is `you've reached the daily limit (L/day). Your quota will be
restored tomorrow`; that text differs from the limit message built by
`NewChatService` for the same limit, which starts with a capital and ends with a
full stop.  The service is left exactly as it was, so no client is called and
the day and every count are unchanged. -/
theorem ChatCompletionStream_limit_reached {σ : Type} (s : ChatService σ) (ctx : Context)
    (chatType : ChatType) (userIdentifier content : String)
    (h : getNum s userIdentifier ≥ s.config.EverydayLimit) :
    (∃ e : GoError,
      (ChatCompletionStream s ctx chatType userIdentifier content).1 = (none, some e) ∧
      e ≠ ErrLimit ∧
      e.text = "you've reached the daily limit (" ++ toString s.config.EverydayLimit
          ++ "/day). Your quota will be restored tomorrow" ∧
      (∀ (init : ChatConfig → ChatConfig) (config : ChatConfig)
          (chatGpt ernieBot : ChatClient σ) (gptState ernieState : σ) (today : Int),
        (init config).EverydayLimit = s.config.EverydayLimit →
        (NewChatService init config chatGpt ernieBot gptState ernieState today).limitContent
            = "You've reached the daily limit (" ++ toString s.config.EverydayLimit
                ++ "/day). Your quota will be restored tomorrow." ∧
        e.text
          ≠ (NewChatService init config chatGpt ernieBot gptState ernieState today).limitContent)) ∧
    (ChatCompletionStream s ctx chatType userIdentifier content).2 = s ∧
    (ChatCompletionStream s ctx chatType userIdentifier content).2.calls = s.calls ∧
    (ChatCompletionStream s ctx chatType userIdentifier content).2.day = s.day ∧
    ∀ v, getNum (ChatCompletionStream s ctx chatType userIdentifier content).2 v = getNum s v := by
  have e : ChatCompletionStream s ctx chatType userIdentifier content
      = ((none, some (Errorf
          "you've reached the daily limit (%d/day). Your quota will be restored tomorrow"
          [s.config.EverydayLimit])), s) := by
    unfold ChatCompletionStream
    simp [h]
  rw [e]
  refine ⟨⟨_, rfl, streamLimit_ne_ErrLimit _, streamLimit_text _, ?_⟩, rfl, rfl, rfl,
    fun v => rfl⟩
  intro init config chatGpt ernieBot gptState ernieState today hcfg
  rw [NewChatService_limitContent, hcfg]
  refine ⟨rfl, ?_⟩
  rw [← limitContent_text]
  exact streamLimit_ne_limitContent _

theorem ChatCompletionStream_limit_reached_witness :
    getNum demoFull "u1" ≥ demoFull.config.EverydayLimit ∧
    (ChatCompletionStream demoFull bgCtx "chatgpt" "u1" "again").2 = demoFull ∧
    (ChatCompletionStream demoFull bgCtx "chatgpt" "u1" "again").2.calls = demoFull.calls ∧
    getNum (ChatCompletionStream demoFull bgCtx "chatgpt" "u1" "again").2 "u1" = 3 ∧
    ∃ e : GoError,
      (ChatCompletionStream demoFull bgCtx "chatgpt" "u1" "again").1 = (none, some e) ∧
      e ≠ ErrLimit :=
  have h := ChatCompletionStream_limit_reached demoFull bgCtx "chatgpt" "u1" "again"
    (by decide)
  ⟨by decide, h.2.1, h.2.2.1, (h.2.2.2.2 "u1").trans (by decide),
    h.1.elim (fun e he => ⟨e, he.1, he.2.1⟩)⟩

/-! ## What a streaming call that passes the limit check returns -/

/-- C11: for a `ChatCompletionStream` call that passes the limit check with a
recognized tag: when the selected client returns a non-nil error `e`, the call
returns `(nil, e)` and the day and every count are unchanged; when it returns
the handle `h` with a nil error, the call returns `(h, nil)` and the user's
count is increased by one, whatever the handle yields later. -/
theorem ChatCompletionStream_result {σ : Type} (s : ChatService σ) (ctx : Context)
    (chatType : ChatType) (userIdentifier content : String)
    (h : Option model.ChatCompletionStream) (err : Option GoError)
    (hnum : isInt (getNum s userIdentifier)) (hL : isInt s.config.EverydayLimit)
    (hlim : getNum s userIdentifier < s.config.EverydayLimit)
    (hsel :
      ((if chatType = "" then s.config.DefaultChatMode else chatType) = ChatErnieBot ∧
        (s.ernieBot.SendChatCompletionStream s.ernieState ctx userIdentifier content).1
          = (h, err)) ∨
      ((if chatType = "" then s.config.DefaultChatMode else chatType) = ChatGPT ∧
        (s.chatGpt.SendChatCompletionStream s.gptState ctx userIdentifier content).1
          = (h, err))) :
    (∀ e, err = some e →
      (ChatCompletionStream s ctx chatType userIdentifier content).1 = (none, some e) ∧
      (ChatCompletionStream s ctx chatType userIdentifier content).2.day = s.day ∧
      (ChatCompletionStream s ctx chatType userIdentifier content).2.userNum = s.userNum ∧
      ∀ v, getNum (ChatCompletionStream s ctx chatType userIdentifier content).2 v
        = getNum s v) ∧
    (err = none →
      (ChatCompletionStream s ctx chatType userIdentifier content).1 = (h, none) ∧
      getNum (ChatCompletionStream s ctx chatType userIdentifier content).2 userIdentifier
        = getNum s userIdentifier + 1 ∧
      (ChatCompletionStream s ctx chatType userIdentifier content).2.day = s.day ∧
      ∀ v, v ≠ userIdentifier →
        getNum (ChatCompletionStream s ctx chatType userIdentifier content).2 v
          = getNum s v) := by
  have hnl : ¬ getNum s userIdentifier ≥ s.config.EverydayLimit := by omega
  have hne : ¬ (ChatGPT = ChatErnieBot) := by decide
  have hw : wrapInt (getNum s userIdentifier + 1) = getNum s userIdentifier + 1 := by
    apply wrapInt_of_isInt
    unfold isInt minInt maxInt at *
    constructor <;> omega
  unfold ChatCompletionStream
  simp only [hnl, if_false]
  rcases hsel with ⟨ht, hp⟩ | ⟨ht, hp⟩
  · simp only [ht, if_true]
    generalize s.ernieBot.SendChatCompletionStream s.ernieState ctx userIdentifier content
      = q at hp
    obtain ⟨⟨stream, err1⟩, st⟩ := q
    simp only [Prod.mk.injEq] at hp
    obtain ⟨rfl, rfl⟩ := hp
    constructor
    · rintro e rfl
      exact ⟨rfl, rfl, rfl, fun v => rfl⟩
    · rintro rfl
      refine ⟨rfl, ?_, rfl, ?_⟩
      · show getNum (addNum _ userIdentifier) userIdentifier = _
        rw [getNum_addNum_self]
        exact hw
      · intro v hv
        show getNum (addNum _ userIdentifier) v = _
        rw [getNum_addNum_other _ _ _ hv]
        rfl
  · simp only [ht, hne, if_true, if_false]
    generalize s.chatGpt.SendChatCompletionStream s.gptState ctx userIdentifier content
      = q at hp
    obtain ⟨⟨stream, err1⟩, st⟩ := q
    simp only [Prod.mk.injEq] at hp
    obtain ⟨rfl, rfl⟩ := hp
    constructor
    · rintro e rfl
      exact ⟨rfl, rfl, rfl, fun v => rfl⟩
    · rintro rfl
      refine ⟨rfl, ?_, rfl, ?_⟩
      · show getNum (addNum _ userIdentifier) userIdentifier = _
        rw [getNum_addNum_self]
        exact hw
      · intro v hv
        show getNum (addNum _ userIdentifier) v = _
        rw [getNum_addNum_other _ _ _ hv]
        rfl

theorem ChatCompletionStream_result_witness :
    ((ChatCompletionStream demo bgCtx "chatgpt" "u1" "hello").1
        = (some ⟨["hi"], none⟩, none) ∧
      getNum (ChatCompletionStream demo bgCtx "chatgpt" "u1" "hello").2 "u1" = 0 + 1) ∧
    ((ChatCompletionStream mixed bgCtx "wenxin" "u1" "hello").1
        = (none, some ⟨"upstream unavailable"⟩) ∧
      getNum (ChatCompletionStream mixed bgCtx "wenxin" "u1" "hello").2 "u1" = 0) :=
  have h1 := (ChatCompletionStream_result demo bgCtx "chatgpt" "u1" "hello"
    (some ⟨["hi"], none⟩) none (by decide) (by decide) (by decide)
    (Or.inr ⟨by decide, by decide⟩)).2 rfl
  have h2 := (ChatCompletionStream_result mixed bgCtx "wenxin" "u1" "hello"
    none (some ⟨"upstream unavailable"⟩) (by decide) (by decide) (by decide)
    (Or.inl ⟨by decide, by decide⟩)).1 _ rfl
  ⟨⟨h1.1, h1.2.1⟩, ⟨h2.1, h2.2.2.2 "u1"⟩⟩

/-! ## The calendar and the first tick of the scheduler -/

theorem yearOfEra_bounds (doe : Int) (h0 : 0 ≤ doe) (h1 : doe ≤ 146096) (yoe : Int)
    (hy : yoe = (doe - doe / 1460 + doe / 36524 - doe / 146096) / 365) :
    0 ≤ yoe ∧ yoe ≤ 399 ∧
    0 ≤ doe - (365 * yoe + yoe / 4 - yoe / 100) ∧
    doe - (365 * yoe + yoe / 4 - yoe / 100) ≤ 365 := by
  have hb : 0 ≤ yoe ∧ yoe ≤ 399 := by omega
  have hd : 0 ≤ doe / 36524 ∧ doe / 36524 ≤ 4 := by omega
  have he : 0 ≤ doe / 146096 ∧ doe / 146096 ≤ 1 := by omega
  have hg : 0 ≤ yoe / 100 ∧ yoe / 100 ≤ 3 := by omega
  generalize hdd : doe / 36524 = d at *
  generalize hee : doe / 146096 = e at *
  generalize hgg : yoe / 100 = g at *
  obtain ⟨hd0, hd1⟩ := hd
  obtain ⟨he0, he1⟩ := he
  obtain ⟨hg0, hg1⟩ := hg
  interval_cases d <;> interval_cases e <;> interval_cases g <;> omega

theorem daysOfCivil_of_parts (era yoe doy : Int) (hy0 : 0 ≤ yoe) (hy1 : yoe ≤ 399)
    (hd0 : 0 ≤ doy) (hd1 : doy ≤ 365) :
    daysOfCivil
        (if (if (5 * doy + 2) / 153 < 10 then (5 * doy + 2) / 153 + 3
              else (5 * doy + 2) / 153 - 9) ≤ 2
          then yoe + era * 400 + 1 else yoe + era * 400)
        (if (5 * doy + 2) / 153 < 10 then (5 * doy + 2) / 153 + 3
          else (5 * doy + 2) / 153 - 9)
        (doy - (153 * ((5 * doy + 2) / 153) + 2) / 5 + 1)
      = era * 146097 + (yoe * 365 + yoe / 4 - yoe / 100 + doy) - 719468 := by
  have hm0 : 0 ≤ (5 * doy + 2) / 153 := by omega
  have hm1 : (5 * doy + 2) / 153 ≤ 11 := by omega
  generalize hmp : (5 * doy + 2) / 153 = mp at *
  unfold daysOfCivil
  simp only []
  by_cases h10 : mp < 10
  · simp only [h10, if_true]
    have e1 : (mp + 3 - 1) / 12 = 0 := by omega
    have e2 : (mp + 3 - 1) % 12 + 1 = mp + 3 := by omega
    have e3 : ¬ mp + 3 ≤ 2 := by omega
    have e4 : mp + 3 > 2 := by omega
    simp only [e1, e2, e3, e4, if_true, if_false]
    omega
  · simp only [h10, if_false]
    have e1 : (mp - 9 - 1) / 12 = 0 := by omega
    have e2 : (mp - 9 - 1) % 12 + 1 = mp - 9 := by omega
    have e3 : mp - 9 ≤ 2 := by omega
    have e4 : ¬ mp - 9 > 2 := by omega
    simp only [e1, e2, e3, e4, if_true, if_false]
    omega

theorem daysOfCivil_civilOfDays (z : Int) :
    daysOfCivil (civilOfDays z).1 (civilOfDays z).2.1 (civilOfDays z).2.2 = z := by
  have hdoe0 : 0 ≤ z + 719468 - (z + 719468) / 146097 * 146097 := by omega
  have hdoe1 : z + 719468 - (z + 719468) / 146097 * 146097 ≤ 146096 := by omega
  have hy := yearOfEra_bounds _ hdoe0 hdoe1 _ rfl
  obtain ⟨hy0, hy1, hd0, hd1⟩ := hy
  have key := daysOfCivil_of_parts ((z + 719468) / 146097) _ _ hy0 hy1 hd0 hd1
  unfold civilOfDays
  simp only []
  rw [key]
  omega

theorem Date_of_fields (t : time.Time) :
    time.Date t.Year t.Month t.Day t.Hour 0 0 0
      = ⟨t.unixNano / 3600000000000 * 3600000000000⟩ := by
  unfold time.Date time.Time.Year time.Time.Month time.Time.Day time.Time.Hour
  rw [daysOfCivil_civilOfDays]
  unfold time.Time.unixSec
  congr 1
  omega

theorem firstTickerDelay_eq (now : time.Time) :
    firstTickerDelay now
      = (now.unixNano + 3600000000000) / 3600000000000 * 3600000000000 - now.unixNano := by
  unfold firstTickerDelay
  simp only [Date_of_fields]
  unfold time.Time.Sub time.Time.Add time.Hour time.Minute time.Second time.Nanosecond
    time.minDuration time.maxDuration
  simp only []
  have h1 : ¬ ((now.unixNano + 60 * (60 * (1000000000 * 1))) / 3600000000000 * 3600000000000
      - now.unixNano < -(2 ^ 63)) := by omega
  have h2 : ¬ ((now.unixNano + 60 * (60 * (1000000000 * 1))) / 3600000000000 * 3600000000000
      - now.unixNano > 2 ^ 63 - 1) := by omega
  rw [if_neg h1, if_neg h2]
  norm_num

/-- C12: the delay of the first ticker is the time left until the next whole
hour after the construction instant `now`: `now` plus the delay is on a whole
hour, the delay is positive and at most one hour, and no whole hour lies
strictly between `now` and `now` plus the delay.  At 10:13:00 the delay is 47
minutes and the first tick is at 11:00:00. -/
theorem firstTickerDelay_next_hour :
    (∀ now : time.Time,
      wholeHour (now.Add (firstTickerDelay now)) ∧
      0 < firstTickerDelay now ∧
      firstTickerDelay now ≤ time.Hour ∧
      ∀ x : time.Time, wholeHour x →
        ¬ (now.unixNano < x.unixNano ∧
          x.unixNano < (now.Add (firstTickerDelay now)).unixNano)) ∧
    firstTickerDelay (time.Date 2023 6 15 10 13 0 0) = 47 * time.Minute ∧
    (time.Date 2023 6 15 10 13 0 0).Add (firstTickerDelay (time.Date 2023 6 15 10 13 0 0))
      = time.Date 2023 6 15 11 0 0 0 := by
  refine ⟨?_, by decide, by decide⟩
  intro now
  have e := firstTickerDelay_eq now
  have hH : time.Hour = 3600000000000 := by decide
  unfold wholeHour time.Time.Add
  simp only [hH, e]
  have hpos : (0 : Int)
      < (now.unixNano + 3600000000000) / 3600000000000 * 3600000000000 - now.unixNano := by
    omega
  have hle : (now.unixNano + 3600000000000) / 3600000000000 * 3600000000000 - now.unixNano
      ≤ (3600000000000 : Int) := by
    omega
  refine ⟨by omega, hpos, hle, ?_⟩
  intro x hx
  omega

theorem firstTickerDelay_next_hour_witness :
    ¬ wholeHour (time.Date 2023 6 15 10 30 0 0) ∧
    wholeHour (time.Date 2023 6 15 11 0 0 0) ∧
    ¬ ((time.Date 2023 6 15 10 13 0 0).unixNano < (time.Date 2023 6 15 11 0 0 0).unixNano ∧
      (time.Date 2023 6 15 11 0 0 0).unixNano
        < ((time.Date 2023 6 15 10 13 0 0).Add
            (firstTickerDelay (time.Date 2023 6 15 10 13 0 0))).unixNano) :=
  ⟨by decide, by decide,
    (firstTickerDelay_next_hour.1 (time.Date 2023 6 15 10 13 0 0)).2.2.2
      (time.Date 2023 6 15 11 0 0 0) (by decide)⟩

/-- C13 as stated fails when the start instant is itself on a whole hour:
started at 10:00:00 the first check is scheduled at 11:00:00, although 10:00:00
is a whole hour that is not before the start, so the scheduled instant is not
the least whole hour at or after the start. -/
theorem firstTick_not_least_at_whole_hour :
    wholeHour (time.Date 2023 6 15 10 0 0 0) ∧
    (time.Date 2023 6 15 10 0 0 0).Add (firstTickerDelay (time.Date 2023 6 15 10 0 0 0))
      = time.Date 2023 6 15 11 0 0 0 ∧
    ¬ (∀ x : time.Time, wholeHour x →
        (time.Date 2023 6 15 10 0 0 0).unixNano ≤ x.unixNano →
        ((time.Date 2023 6 15 10 0 0 0).Add
          (firstTickerDelay (time.Date 2023 6 15 10 0 0 0))).unixNano ≤ x.unixNano) := by
  refine ⟨by decide, by decide, ?_⟩
  intro h
  have h1 := h (time.Date 2023 6 15 10 0 0 0) (by decide) (le_refl _)
  exact absurd h1 (by decide)

/-- C13, amended: for every start instant `now`, the instant at which the first
reset check is scheduled is the least whole hour strictly after `now`; it is
the least whole hour at or after `now` whenever `now` is not itself on a whole
hour, and it is `now` plus one hour when `now` is on a whole hour. -/
theorem firstTick_least_whole_hour_after (now : time.Time) :
    wholeHour (now.Add (firstTickerDelay now)) ∧
    now.unixNano < (now.Add (firstTickerDelay now)).unixNano ∧
    (∀ x : time.Time, wholeHour x → now.unixNano < x.unixNano →
      (now.Add (firstTickerDelay now)).unixNano ≤ x.unixNano) ∧
    (¬ wholeHour now → ∀ x : time.Time, wholeHour x → now.unixNano ≤ x.unixNano →
      (now.Add (firstTickerDelay now)).unixNano ≤ x.unixNano) ∧
    (wholeHour now → now.Add (firstTickerDelay now) = now.Add time.Hour) := by
  have e := firstTickerDelay_eq now
  have hH : time.Hour = 3600000000000 := by decide
  unfold wholeHour time.Time.Add
  simp only [hH, e]
  refine ⟨by omega, by omega, ?_, ?_, ?_⟩
  · intro x hx hlt
    omega
  · intro hn x hx hle
    omega
  · intro hw
    congr 1
    omega

theorem firstTick_least_whole_hour_after_witness :
    ((time.Date 2023 6 15 10 13 0 0).Add (firstTickerDelay (time.Date 2023 6 15 10 13 0 0))).unixNano
      ≤ (time.Date 2023 6 15 12 0 0 0).unixNano ∧
    (time.Date 2023 6 15 10 0 0 0).Add (firstTickerDelay (time.Date 2023 6 15 10 0 0 0))
      = (time.Date 2023 6 15 10 0 0 0).Add time.Hour :=
  ⟨(firstTick_least_whole_hour_after (time.Date 2023 6 15 10 13 0 0)).2.2.2.1 (by decide)
      (time.Date 2023 6 15 12 0 0 0) (by decide) (by decide),
    (firstTick_least_whole_hour_after (time.Date 2023 6 15 10 0 0 0)).2.2.2.2 (by decide)⟩

/-! ## The effect of one call on the service -/

theorem ChatCompletion_eq_limit {σ : Type} (s : ChatService σ) (ctx : Context)
    (chatType : ChatType) (userIdentifier content : String)
    (h : getNum s userIdentifier ≥ s.config.EverydayLimit) :
    ChatCompletion s ctx chatType userIdentifier content
      = ((s.limitContent, some ErrLimit), s) := by
  unfold ChatCompletion
  simp [h]

theorem ChatCompletionStream_eq_limit {σ : Type} (s : ChatService σ) (ctx : Context)
    (chatType : ChatType) (userIdentifier content : String)
    (h : getNum s userIdentifier ≥ s.config.EverydayLimit) :
    ChatCompletionStream s ctx chatType userIdentifier content
      = ((none, some (Errorf
          "you've reached the daily limit (%d/day). Your quota will be restored tomorrow"
          [s.config.EverydayLimit])), s) := by
  unfold ChatCompletionStream
  simp [h]

theorem ChatCompletion_eq_unknown {σ : Type} (s : ChatService σ) (ctx : Context)
    (chatType : ChatType) (userIdentifier content : String)
    (hlim : getNum s userIdentifier < s.config.EverydayLimit)
    (hg : (if chatType = "" then s.config.DefaultChatMode else chatType) ≠ ChatGPT)
    (he : (if chatType = "" then s.config.DefaultChatMode else chatType) ≠ ChatErnieBot) :
    ChatCompletion s ctx chatType userIdentifier content
      = ((responseEmpty, none), { s with
          logger := s.logger ++
            [⟨some (if chatType = "" then s.config.DefaultChatMode else chatType),
              userIdentifier, "receive content:" ++ content⟩] }) := by
  have hnl : ¬ getNum s userIdentifier ≥ s.config.EverydayLimit := by omega
  have hg' : ¬ (if chatType = "" then s.config.DefaultChatMode else chatType) = ChatGPT := hg
  have he' : ¬ (if chatType = "" then s.config.DefaultChatMode else chatType) = ChatErnieBot := he
  unfold ChatCompletion
  simp only [hnl, hg', he', if_false]
  simp

theorem ChatCompletionStream_eq_unknown {σ : Type} (s : ChatService σ) (ctx : Context)
    (chatType : ChatType) (userIdentifier content : String)
    (hlim : getNum s userIdentifier < s.config.EverydayLimit)
    (hg : (if chatType = "" then s.config.DefaultChatMode else chatType) ≠ ChatGPT)
    (he : (if chatType = "" then s.config.DefaultChatMode else chatType) ≠ ChatErnieBot) :
    ChatCompletionStream s ctx chatType userIdentifier content
      = ((none, none), addNum { s with
          logger := s.logger ++ [⟨none, userIdentifier, "receive content:" ++ content⟩] }
          userIdentifier) := by
  have hnl : ¬ getNum s userIdentifier ≥ s.config.EverydayLimit := by omega
  have hg' : ¬ (if chatType = "" then s.config.DefaultChatMode else chatType) = ChatGPT := hg
  have he' : ¬ (if chatType = "" then s.config.DefaultChatMode else chatType) = ChatErnieBot := he
  unfold ChatCompletionStream
  simp only [hnl, hg', he', if_false]

theorem ChatCompletion_frame {σ : Type} (s : ChatService σ) (ctx : Context)
    (chatType : ChatType) (userIdentifier content : String) :
    QuotaFrame s (ChatCompletion s ctx chatType userIdentifier content).2 userIdentifier := by
  unfold QuotaFrame
  by_cases hlim : getNum s userIdentifier ≥ s.config.EverydayLimit
  · rw [ChatCompletion_eq_limit s ctx chatType userIdentifier content hlim]
    exact ⟨rfl, rfl, Or.inl rfl⟩
  · have hlt : getNum s userIdentifier < s.config.EverydayLimit := by omega
    unfold ChatCompletion
    simp only [hlim, if_false]
    by_cases he : (if chatType = "" then s.config.DefaultChatMode else chatType) = ChatErnieBot
    · simp only [he, if_true]
      generalize s.ernieBot.SendChatCompletion s.ernieState ctx userIdentifier content = r
      obtain ⟨⟨resp, err⟩, st⟩ := r
      cases err with
      | some e => exact ⟨rfl, rfl, Or.inl rfl⟩
      | none =>
        by_cases hresp : resp = ""
        · simp only [hresp, if_true]
          exact ⟨trivial, trivial, Or.inl trivial⟩
        · simp only [hresp, if_false]
          exact ⟨rfl, rfl, Or.inr ⟨hlt, rfl⟩⟩
    · simp only [he, if_false]
      by_cases hg : (if chatType = "" then s.config.DefaultChatMode else chatType) = ChatGPT
      · simp only [hg, if_true]
        generalize s.chatGpt.SendChatCompletion s.gptState ctx userIdentifier content = r
        obtain ⟨⟨resp, err⟩, st⟩ := r
        cases err with
        | some e => exact ⟨rfl, rfl, Or.inl rfl⟩
        | none =>
          by_cases hresp : resp = ""
          · simp only [hresp, if_true]
            exact ⟨trivial, trivial, Or.inl trivial⟩
          · simp only [hresp, if_false]
            exact ⟨rfl, rfl, Or.inr ⟨hlt, rfl⟩⟩
      · simp [hg]

theorem ChatCompletionStream_frame {σ : Type} (s : ChatService σ) (ctx : Context)
    (chatType : ChatType) (userIdentifier content : String) :
    QuotaFrame s (ChatCompletionStream s ctx chatType userIdentifier content).2
      userIdentifier := by
  unfold QuotaFrame
  by_cases hlim : getNum s userIdentifier ≥ s.config.EverydayLimit
  · rw [ChatCompletionStream_eq_limit s ctx chatType userIdentifier content hlim]
    exact ⟨rfl, rfl, Or.inl rfl⟩
  · have hlt : getNum s userIdentifier < s.config.EverydayLimit := by omega
    unfold ChatCompletionStream
    simp only [hlim, if_false]
    by_cases he : (if chatType = "" then s.config.DefaultChatMode else chatType) = ChatErnieBot
    · simp only [he, if_true]
      generalize s.ernieBot.SendChatCompletionStream s.ernieState ctx userIdentifier content = r
      obtain ⟨⟨stream, err⟩, st⟩ := r
      cases err with
      | some e => exact ⟨rfl, rfl, Or.inl rfl⟩
      | none => exact ⟨rfl, rfl, Or.inr ⟨hlt, rfl⟩⟩
    · simp only [he, if_false]
      by_cases hg : (if chatType = "" then s.config.DefaultChatMode else chatType) = ChatGPT
      · simp only [hg, if_true]
        generalize s.chatGpt.SendChatCompletionStream s.gptState ctx userIdentifier content = r
        obtain ⟨⟨stream, err⟩, st⟩ := r
        cases err with
        | some e => exact ⟨rfl, rfl, Or.inl rfl⟩
        | none => exact ⟨rfl, rfl, Or.inr ⟨hlt, rfl⟩⟩
      · simp only [hg, if_false]
        exact ⟨rfl, rfl, Or.inr ⟨hlt, rfl⟩⟩

theorem ChatCompletion_calls_limit {σ : Type} (s : ChatService σ) (ctx : Context)
    (chatType : ChatType) (userIdentifier content : String)
    (h : getNum s userIdentifier ≥ s.config.EverydayLimit ∨
      ((if chatType = "" then s.config.DefaultChatMode else chatType) ≠ ChatGPT ∧
        (if chatType = "" then s.config.DefaultChatMode else chatType) ≠ ChatErnieBot)) :
    (ChatCompletion s ctx chatType userIdentifier content).2.calls = s.calls ∧
    (ChatCompletion s ctx chatType userIdentifier content).2.gptState = s.gptState ∧
    (ChatCompletion s ctx chatType userIdentifier content).2.ernieState = s.ernieState := by
  by_cases hlim : getNum s userIdentifier ≥ s.config.EverydayLimit
  · rw [ChatCompletion_eq_limit s ctx chatType userIdentifier content hlim]
    exact ⟨rfl, rfl, rfl⟩
  · rcases h with h | ⟨hg, he⟩
    · exact absurd h hlim
    · rw [ChatCompletion_eq_unknown s ctx chatType userIdentifier content (by omega) hg he]
      exact ⟨rfl, rfl, rfl⟩

theorem ChatCompletionStream_calls_limit {σ : Type} (s : ChatService σ) (ctx : Context)
    (chatType : ChatType) (userIdentifier content : String)
    (h : getNum s userIdentifier ≥ s.config.EverydayLimit ∨
      ((if chatType = "" then s.config.DefaultChatMode else chatType) ≠ ChatGPT ∧
        (if chatType = "" then s.config.DefaultChatMode else chatType) ≠ ChatErnieBot)) :
    (ChatCompletionStream s ctx chatType userIdentifier content).2.calls = s.calls ∧
    (ChatCompletionStream s ctx chatType userIdentifier content).2.gptState = s.gptState ∧
    (ChatCompletionStream s ctx chatType userIdentifier content).2.ernieState
      = s.ernieState := by
  by_cases hlim : getNum s userIdentifier ≥ s.config.EverydayLimit
  · rw [ChatCompletionStream_eq_limit s ctx chatType userIdentifier content hlim]
    exact ⟨rfl, rfl, rfl⟩
  · rcases h with h | ⟨hg, he⟩
    · exact absurd h hlim
    · rw [ChatCompletionStream_eq_unknown s ctx chatType userIdentifier content (by omega) hg he]
      exact ⟨rfl, rfl, rfl⟩

/-- C14: no internal retry.  A call that passes the limit check with the tag
`chatgpt` or `wenxin` makes exactly one client call, on the selected client,
with the caller's context, user identifier and content; any other call makes no
client call at all.  This holds for `ChatCompletion` and for
`ChatCompletionStream`. -/
theorem no_internal_retry {σ : Type} (s : ChatService σ) (ctx : Context)
    (chatType : ChatType) (userIdentifier content : String) :
    (getNum s userIdentifier < s.config.EverydayLimit →
      (if chatType = "" then s.config.DefaultChatMode else chatType) = "chatgpt" →
      (ChatCompletion s ctx chatType userIdentifier content).2.calls
        = s.calls ++ [Call.SendChatCompletion Client.chatGpt ctx userIdentifier content
            (s.chatGpt.SendChatCompletion s.gptState ctx userIdentifier content).1.1
            (s.chatGpt.SendChatCompletion s.gptState ctx userIdentifier content).1.2] ∧
      (ChatCompletionStream s ctx chatType userIdentifier content).2.calls
        = s.calls ++ [Call.SendChatCompletionStream Client.chatGpt ctx userIdentifier content
            (s.chatGpt.SendChatCompletionStream s.gptState ctx userIdentifier content).1.1
            (s.chatGpt.SendChatCompletionStream s.gptState ctx userIdentifier content).1.2]) ∧
    (getNum s userIdentifier < s.config.EverydayLimit →
      (if chatType = "" then s.config.DefaultChatMode else chatType) = "wenxin" →
      (ChatCompletion s ctx chatType userIdentifier content).2.calls
        = s.calls ++ [Call.SendChatCompletion Client.ernieBot ctx userIdentifier content
            (s.ernieBot.SendChatCompletion s.ernieState ctx userIdentifier content).1.1
            (s.ernieBot.SendChatCompletion s.ernieState ctx userIdentifier content).1.2] ∧
      (ChatCompletionStream s ctx chatType userIdentifier content).2.calls
        = s.calls ++ [Call.SendChatCompletionStream Client.ernieBot ctx userIdentifier content
            (s.ernieBot.SendChatCompletionStream s.ernieState ctx userIdentifier content).1.1
            (s.ernieBot.SendChatCompletionStream s.ernieState ctx userIdentifier content).1.2]) ∧
    ((getNum s userIdentifier ≥ s.config.EverydayLimit ∨
        ((if chatType = "" then s.config.DefaultChatMode else chatType) ≠ "chatgpt" ∧
          (if chatType = "" then s.config.DefaultChatMode else chatType) ≠ "wenxin")) →
      (ChatCompletion s ctx chatType userIdentifier content).2.calls = s.calls ∧
      (ChatCompletionStream s ctx chatType userIdentifier content).2.calls = s.calls) := by
  refine ⟨?_, ?_, ?_⟩
  · intro hlim ht
    exact ⟨(ChatCompletion_dispatch_chatGpt s ctx chatType userIdentifier content hlim ht).1,
      (ChatCompletionStream_dispatch_chatGpt s ctx chatType userIdentifier content hlim ht).1⟩
  · intro hlim ht
    exact ⟨(ChatCompletion_dispatch_ernieBot s ctx chatType userIdentifier content hlim ht).1,
      (ChatCompletionStream_dispatch_ernieBot s ctx chatType userIdentifier content hlim ht).1⟩
  · intro h
    exact ⟨(ChatCompletion_calls_limit s ctx chatType userIdentifier content h).1,
      (ChatCompletionStream_calls_limit s ctx chatType userIdentifier content h).1⟩

theorem no_internal_retry_witness :
    (ChatCompletion mixed bgCtx "wenxin" "u1" "hello").2.calls
      = [Call.SendChatCompletion Client.ernieBot bgCtx "u1" "hello" ""
          (some ⟨"upstream unavailable"⟩)] ∧
    (ChatCompletionStream demo bgCtx "" "u1" "hello").2.calls
      = [Call.SendChatCompletionStream Client.chatGpt bgCtx "u1" "hello"
          (some ⟨["hi"], none⟩) none] ∧
    (ChatCompletion demoFull bgCtx "" "u1" "hello").2.calls = demoFull.calls ∧
    (ChatCompletionStream demo bgCtx "bard" "u1" "hello").2.calls = [] :=
  ⟨((no_internal_retry mixed bgCtx "wenxin" "u1" "hello").2.1 (by decide) (by decide)).1.trans
      (by decide),
    ((no_internal_retry demo bgCtx "" "u1" "hello").1 (by decide) (by decide)).2.trans
      (by decide),
    ((no_internal_retry demoFull bgCtx "" "u1" "hello").2.2 (Or.inl (by decide))).1,
    ((no_internal_retry demo bgCtx "bard" "u1" "hello").2.2
      (Or.inr ⟨by decide, by decide⟩)).2⟩

/-- C18: a `ChatCompletionStream` call that passes the limit check with a tag
that is neither `chatgpt` nor `wenxin` calls no client, returns a nil stream
and a nil error, and still raises the user's count by one, while
`ChatCompletion` with the same arguments returns the empty-response message
and leaves the count as it was. -/
theorem ChatCompletionStream_unknown_tag {σ : Type} (s : ChatService σ) (ctx : Context)
    (chatType : ChatType) (userIdentifier content : String)
    (hnum : isInt (getNum s userIdentifier)) (hL : isInt s.config.EverydayLimit)
    (hlim : getNum s userIdentifier < s.config.EverydayLimit)
    (hg : (if chatType = "" then s.config.DefaultChatMode else chatType) ≠ "chatgpt")
    (he : (if chatType = "" then s.config.DefaultChatMode else chatType) ≠ "wenxin") :
    (ChatCompletionStream s ctx chatType userIdentifier content).1 = (none, none) ∧
    (ChatCompletionStream s ctx chatType userIdentifier content).2.calls = s.calls ∧
    (ChatCompletionStream s ctx chatType userIdentifier content).2.gptState = s.gptState ∧
    (ChatCompletionStream s ctx chatType userIdentifier content).2.ernieState = s.ernieState ∧
    getNum (ChatCompletionStream s ctx chatType userIdentifier content).2 userIdentifier
      = getNum s userIdentifier + 1 ∧
    (ChatCompletion s ctx chatType userIdentifier content).1 = ("Get response empty.", none) ∧
    getNum (ChatCompletion s ctx chatType userIdentifier content).2 userIdentifier
      = getNum s userIdentifier := by
  have hw : wrapInt (getNum s userIdentifier + 1) = getNum s userIdentifier + 1 := by
    apply wrapInt_of_isInt
    unfold isInt minInt maxInt at *
    constructor <;> omega
  rw [ChatCompletionStream_eq_unknown s ctx chatType userIdentifier content hlim hg he,
    ChatCompletion_eq_unknown s ctx chatType userIdentifier content hlim hg he]
  refine ⟨rfl, rfl, rfl, rfl, ?_, rfl, rfl⟩
  show getNum (addNum _ userIdentifier) userIdentifier = _
  rw [getNum_addNum_self]
  exact hw

theorem ChatCompletionStream_unknown_tag_witness :
    (ChatCompletionStream demo bgCtx "bard" "u1" "hello").1 = (none, none) ∧
    (ChatCompletionStream demo bgCtx "bard" "u1" "hello").2.calls = demo.calls ∧
    getNum (ChatCompletionStream demo bgCtx "bard" "u1" "hello").2 "u1" = 1 ∧
    getNum (ChatCompletion demo bgCtx "bard" "u1" "hello").2 "u1" = 0 :=
  have h := ChatCompletionStream_unknown_tag demo bgCtx "bard" "u1" "hello"
    (by decide) (by decide) (by decide) (by decide) (by decide)
  ⟨h.1, h.2.1, h.2.2.2.2.1, h.2.2.2.2.2.2⟩

theorem ChatCompletion_calls_added {σ : Type} (s : ChatService σ) (ctx : Context)
    (chatType : ChatType) (userIdentifier content : String) :
    ∃ added : List Call,
      (ChatCompletion s ctx chatType userIdentifier content).2.calls = s.calls ++ added ∧
      ∀ c ∈ added, ∀ client, c ≠ Call.Reset client := by
  by_cases hlim : getNum s userIdentifier < s.config.EverydayLimit
  · by_cases hg : (if chatType = "" then s.config.DefaultChatMode else chatType) = ChatGPT
    · refine ⟨_, (ChatCompletion_dispatch_chatGpt s ctx chatType userIdentifier content
        hlim hg).1, ?_⟩
      intro c hc client
      simp only [List.mem_singleton] at hc
      subst hc
      simp
    · by_cases he : (if chatType = "" then s.config.DefaultChatMode else chatType)
          = ChatErnieBot
      · refine ⟨_, (ChatCompletion_dispatch_ernieBot s ctx chatType userIdentifier content
          hlim he).1, ?_⟩
        intro c hc client
        simp only [List.mem_singleton] at hc
        subst hc
        simp
      · refine ⟨[], ?_, by simp⟩
        rw [(ChatCompletion_calls_limit s ctx chatType userIdentifier content
          (Or.inr ⟨hg, he⟩)).1]
        simp
  · refine ⟨[], ?_, by simp⟩
    rw [(ChatCompletion_calls_limit s ctx chatType userIdentifier content
      (Or.inl (by omega))).1]
    simp

theorem ChatCompletionStream_calls_added {σ : Type} (s : ChatService σ) (ctx : Context)
    (chatType : ChatType) (userIdentifier content : String) :
    ∃ added : List Call,
      (ChatCompletionStream s ctx chatType userIdentifier content).2.calls
        = s.calls ++ added ∧
      ∀ c ∈ added, ∀ client, c ≠ Call.Reset client := by
  by_cases hlim : getNum s userIdentifier < s.config.EverydayLimit
  · by_cases hg : (if chatType = "" then s.config.DefaultChatMode else chatType) = ChatGPT
    · refine ⟨_, (ChatCompletionStream_dispatch_chatGpt s ctx chatType userIdentifier content
        hlim hg).1, ?_⟩
      intro c hc client
      simp only [List.mem_singleton] at hc
      subst hc
      simp
    · by_cases he : (if chatType = "" then s.config.DefaultChatMode else chatType)
          = ChatErnieBot
      · refine ⟨_, (ChatCompletionStream_dispatch_ernieBot s ctx chatType userIdentifier
          content hlim he).1, ?_⟩
        intro c hc client
        simp only [List.mem_singleton] at hc
        subst hc
        simp
      · refine ⟨[], ?_, by simp⟩
        rw [(ChatCompletionStream_calls_limit s ctx chatType userIdentifier content
          (Or.inr ⟨hg, he⟩)).1]
        simp
  · refine ⟨[], ?_, by simp⟩
    rw [(ChatCompletionStream_calls_limit s ctx chatType userIdentifier content
      (Or.inl (by omega))).1]
    simp

theorem QuotaFrame_counts {σ : Type} (s s1 : ChatService σ) (userIdentifier : String)
    (hnum : isInt (getNum s userIdentifier)) (hL : isInt s.config.EverydayLimit)
    (h : QuotaFrame s s1 userIdentifier) :
    (∀ v, v ≠ userIdentifier → getNum s1 v = getNum s v) ∧
    (getNum s1 userIdentifier = getNum s userIdentifier ∨
      (getNum s userIdentifier < s.config.EverydayLimit ∧
        getNum s1 userIdentifier = getNum s userIdentifier + 1)) := by
  obtain ⟨_, _, hu | ⟨hlt, hu⟩⟩ := h
  · exact ⟨fun v _ => getNum_congr s s1 hu v, Or.inl (getNum_congr s s1 hu _)⟩
  · have hw : wrapInt (getNum s userIdentifier + 1) = getNum s userIdentifier + 1 := by
      apply wrapInt_of_isInt
      unfold isInt minInt maxInt at *
      constructor <;> omega
    constructor
    · intro v hv
      rw [getNum_congr (addNum s userIdentifier) s1 hu, getNum_addNum_other _ _ _ hv]
    · right
      refine ⟨hlt, ?_⟩
      rw [getNum_congr (addNum s userIdentifier) s1 hu, getNum_addNum_self, hw]

theorem RequestFrame_of_QuotaFrame {σ : Type} (s s1 : ChatService σ) (userIdentifier : String)
    (hnum : isInt (getNum s userIdentifier)) (hL : isInt s.config.EverydayLimit)
    (h : QuotaFrame s s1 userIdentifier)
    (hc : ∃ added : List Call, s1.calls = s.calls ++ added ∧
      ∀ c ∈ added, ∀ client, c ≠ Call.Reset client) :
    RequestFrame s s1 userIdentifier := by
  have hq := QuotaFrame_counts s s1 userIdentifier hnum hL h
  refine ⟨h.1, hq.1, ?_, ?_, hc⟩
  · rcases hq.2 with h1 | ⟨_, h1⟩
    · exact Or.inl h1
    · exact Or.inr h1
  · rcases hq.2 with h1 | ⟨_, h1⟩ <;> omega

/-- C19: the frame of a request.  For every `ChatCompletion` and every
`ChatCompletionStream` call for a user, with any tag, content and client
result, the stored day is unchanged, the count of every other user is
unchanged, the user's own count is its previous value or that value plus one
and so never decreases, and no `Reset` is called on a client. -/
theorem request_frame {σ : Type} (s : ChatService σ) (ctx : Context)
    (chatType : ChatType) (userIdentifier content : String)
    (hnum : isInt (getNum s userIdentifier)) (hL : isInt s.config.EverydayLimit) :
    RequestFrame s (ChatCompletion s ctx chatType userIdentifier content).2 userIdentifier ∧
    RequestFrame s (ChatCompletionStream s ctx chatType userIdentifier content).2
      userIdentifier :=
  ⟨RequestFrame_of_QuotaFrame s _ userIdentifier hnum hL
      (ChatCompletion_frame s ctx chatType userIdentifier content)
      (ChatCompletion_calls_added s ctx chatType userIdentifier content),
    RequestFrame_of_QuotaFrame s _ userIdentifier hnum hL
      (ChatCompletionStream_frame s ctx chatType userIdentifier content)
      (ChatCompletionStream_calls_added s ctx chatType userIdentifier content)⟩

theorem request_frame_witness :
    isInt (getNum (serve demo [req "u2"]) "u1") ∧
    (ChatCompletion (serve demo [req "u2"]) bgCtx "" "u1" "hello").2.day = 14 ∧
    getNum (ChatCompletion (serve demo [req "u2"]) bgCtx "" "u1" "hello").2 "u2" = 1 ∧
    getNum (serve demo [req "u2"]) "u1"
      ≤ getNum (ChatCompletionStream (serve demo [req "u2"]) bgCtx "" "u1" "hello").2 "u1" :=
  have h := request_frame (serve demo [req "u2"]) bgCtx "" "u1" "hello"
    (by decide) (by decide)
  ⟨by decide, h.1.1, (h.1.2.1 "u2" (by decide)).trans (by decide), h.2.2.2.2.1⟩

/-! ## The quota invariant of sequential use -/

theorem CountsBounded_of_QuotaFrame {σ : Type} (s s1 : ChatService σ)
    (userIdentifier : String) (hL : isInt s.config.EverydayLimit)
    (inv : CountsBounded s) (h : QuotaFrame s s1 userIdentifier) :
    CountsBounded s1 ∧ s1.config = s.config := by
  have hnum : isInt (getNum s userIdentifier) := by
    have h1 := inv userIdentifier
    unfold isInt minInt maxInt at *
    constructor <;> omega
  have hq := QuotaFrame_counts s s1 userIdentifier hnum hL h
  refine ⟨?_, h.2.1⟩
  intro v
  rw [h.2.1]
  by_cases hv : v = userIdentifier
  · subst hv
    have h1 := inv v
    rcases hq.2 with e | ⟨hlt, e⟩ <;> rw [e] <;> constructor <;> omega
  · rw [hq.1 v hv]
    exact inv v

theorem CountsBounded_reset {σ : Type} (s : ChatService σ) (t : Int)
    (h0 : 0 ≤ s.config.EverydayLimit) (inv : CountsBounded s) :
    CountsBounded (reset s t) ∧ (reset s t).config = s.config := by
  by_cases hd : s.day = t
  · simp [reset, hd, inv]
  · refine ⟨?_, by simp [reset, hd]⟩
    intro v
    simp [reset, hd, getNum, h0]

theorem CountsBounded_applyOp {σ : Type} (s : ChatService σ) (op : Op)
    (h0 : 0 ≤ s.config.EverydayLimit) (hL : isInt s.config.EverydayLimit)
    (inv : CountsBounded s) :
    CountsBounded (applyOp s op) ∧ (applyOp s op).config = s.config := by
  cases op with
  | ChatCompletion ctx chatType userIdentifier content =>
    exact CountsBounded_of_QuotaFrame s _ userIdentifier hL inv
      (ChatCompletion_frame s ctx chatType userIdentifier content)
  | ChatCompletionStream ctx chatType userIdentifier content =>
    exact CountsBounded_of_QuotaFrame s _ userIdentifier hL inv
      (ChatCompletionStream_frame s ctx chatType userIdentifier content)
  | reset t => exact CountsBounded_reset s t h0 inv

theorem CountsBounded_runOps {σ : Type} (ops : List Op) (s : ChatService σ)
    (h0 : 0 ≤ s.config.EverydayLimit) (hL : isInt s.config.EverydayLimit)
    (inv : CountsBounded s) :
    CountsBounded (runOps s ops) ∧ (runOps s ops).config = s.config := by
  induction ops generalizing s with
  | nil => exact ⟨inv, rfl⟩
  | cons op rest ih =>
    have hstep := CountsBounded_applyOp s op h0 hL inv
    have hrec := ih (applyOp s op) (by rw [hstep.2]; exact h0) (by rw [hstep.2]; exact hL)
      hstep.1
    exact ⟨hrec.1, hrec.2.trans hstep.2⟩

/-- C17: the sequential quota invariant.  For a daily limit `L ≥ 0`, in every
state reached from a freshly constructed service by calls of `ChatCompletion`,
`ChatCompletionStream` and `reset` that do not overlap, with any client results
and any current days, every user's count lies between zero and `L`. -/
theorem sequential_quota_invariant {σ : Type} (init : ChatConfig → ChatConfig)
    (config : ChatConfig) (chatGpt ernieBot : ChatClient σ) (gptState ernieState : σ)
    (today : Int) (ops : List Op) (u : String)
    (h0 : 0 ≤ (init config).EverydayLimit) (hL : isInt (init config).EverydayLimit) :
    0 ≤ getNum (runOps (NewChatService init config chatGpt ernieBot gptState ernieState today)
        ops) u ∧
    getNum (runOps (NewChatService init config chatGpt ernieBot gptState ernieState today)
        ops) u ≤ (init config).EverydayLimit := by
  have inv0 : CountsBounded
      (NewChatService init config chatGpt ernieBot gptState ernieState today) := by
    intro v
    simp [NewChatService, getNum, h0]
  have h := CountsBounded_runOps ops
    (NewChatService init config chatGpt ernieBot gptState ernieState today) h0 hL inv0
  have hv := h.1 u
  rw [h.2] at hv
  exact hv

theorem sequential_quota_invariant_witness :
    getNum (runOps (demoService 1 (echoClient "hi") (echoClient "ni hao")) busyDay) "u1" = 1 ∧
    (0 ≤ getNum (runOps (demoService 1 (echoClient "hi") (echoClient "ni hao")) busyDay) "u2" ∧
      getNum (runOps (demoService 1 (echoClient "hi") (echoClient "ni hao")) busyDay) "u2"
        ≤ 1) :=
  ⟨by decide,
    sequential_quota_invariant id ⟨ChatGPT, 1⟩ (echoClient "hi") (echoClient "ni hao") 0 0 14
      busyDay "u2" (by decide) (by decide)⟩

/-! ## Cancelled request contexts -/

/-- C15 as stated fails: with a cancelled context and a client that answers
all the same, `ChatCompletion` and `ChatCompletionStream` hand the caller's
context to the client and then raise the count of `u1` from 0 to 1. -/
theorem cancelled_call_still_charged :
    cancelledCtx.cancelled = true ∧
    (ChatCompletion demo cancelledCtx "" "u1" "hello").2.calls
      = [Call.SendChatCompletion Client.chatGpt cancelledCtx "u1" "hello" "hi" none] ∧
    getNum demo "u1" = 0 ∧
    getNum (ChatCompletion demo cancelledCtx "" "u1" "hello").2 "u1" = 1 ∧
    getNum (ChatCompletionStream demo cancelledCtx "" "u1" "hello").2 "u1" = 1 ∧
    ¬ (getNum (ChatCompletion demo cancelledCtx "" "u1" "hello").2 "u1" = getNum demo "u1") ∧
    ¬ (getNum (ChatCompletionStream demo cancelledCtx "" "u1" "hello").2 "u1"
        = getNum demo "u1") := by
  decide

/-- C15, amended: for a call whose context is cancelled and that reaches a
client, the context handed to the client is the caller's, and the user's count
is not raised when the client returns a non-nil error, nor, in
`ChatCompletion`, when it returns an empty text; the service never inspects
the context itself, so a client result with a nil error is charged as in any
other call. -/
theorem cancelled_call_quota {σ : Type} (s : ChatService σ) (ctx : Context)
    (chatType : ChatType) (userIdentifier content t : String) (err : Option GoError)
    (h : Option model.ChatCompletionStream) (serr : Option GoError)
    (_hc : ctx.cancelled = true)
    (hnum : isInt (getNum s userIdentifier)) (hL : isInt s.config.EverydayLimit)
    (hlim : getNum s userIdentifier < s.config.EverydayLimit)
    (hsel :
      ((if chatType = "" then s.config.DefaultChatMode else chatType) = ChatErnieBot ∧
        (s.ernieBot.SendChatCompletion s.ernieState ctx userIdentifier content).1
          = (t, err) ∧
        (s.ernieBot.SendChatCompletionStream s.ernieState ctx userIdentifier content).1
          = (h, serr)) ∨
      ((if chatType = "" then s.config.DefaultChatMode else chatType) = ChatGPT ∧
        (s.chatGpt.SendChatCompletion s.gptState ctx userIdentifier content).1
          = (t, err) ∧
        (s.chatGpt.SendChatCompletionStream s.gptState ctx userIdentifier content).1
          = (h, serr))) :
    (∃ client, (ChatCompletion s ctx chatType userIdentifier content).2.calls
      = s.calls ++ [Call.SendChatCompletion client ctx userIdentifier content t err]) ∧
    (∃ client, (ChatCompletionStream s ctx chatType userIdentifier content).2.calls
      = s.calls ++ [Call.SendChatCompletionStream client ctx userIdentifier content h serr]) ∧
    (err ≠ none ∨ t = "" →
      ∀ v, getNum (ChatCompletion s ctx chatType userIdentifier content).2 v = getNum s v) ∧
    (serr ≠ none →
      ∀ v, getNum (ChatCompletionStream s ctx chatType userIdentifier content).2 v
        = getNum s v) ∧
    (err = none → t ≠ "" →
      getNum (ChatCompletion s ctx chatType userIdentifier content).2 userIdentifier
        = getNum s userIdentifier + 1) ∧
    (serr = none →
      getNum (ChatCompletionStream s ctx chatType userIdentifier content).2 userIdentifier
        = getNum s userIdentifier + 1) := by
  have hnl : ¬ getNum s userIdentifier ≥ s.config.EverydayLimit := by omega
  have hne : ¬ (ChatGPT = ChatErnieBot) := by decide
  have hw : wrapInt (getNum s userIdentifier + 1) = getNum s userIdentifier + 1 := by
    apply wrapInt_of_isInt
    unfold isInt minInt maxInt at *
    constructor <;> omega
  unfold ChatCompletion ChatCompletionStream
  simp only [hnl, if_false]
  rcases hsel with ⟨ht, hp, hq⟩ | ⟨ht, hp, hq⟩
  · simp only [ht, if_true]
    generalize s.ernieBot.SendChatCompletion s.ernieState ctx userIdentifier content = p at hp
    generalize s.ernieBot.SendChatCompletionStream s.ernieState ctx userIdentifier content
      = q at hq
    obtain ⟨⟨t1, err1⟩, st1⟩ := p
    obtain ⟨⟨h1, serr1⟩, st2⟩ := q
    simp only [Prod.mk.injEq] at hp hq
    obtain ⟨rfl, rfl⟩ := hp
    obtain ⟨rfl, rfl⟩ := hq
    refine ⟨⟨Client.ernieBot, ?_⟩, ⟨Client.ernieBot, ?_⟩, ?_, ?_, ?_, ?_⟩
    · cases err1 with
      | some e => rfl
      | none =>
        by_cases hresp : t1 = ""
        · simp [hresp]
        · simp [hresp, addNum]
    · cases serr1 with
      | some e => rfl
      | none => rfl
    · intro hcase v
      cases err1 with
      | some e => rfl
      | none =>
        have ht1 : t1 = "" := by simpa using hcase
        simp [ht1, getNum]
    · intro hcase v
      cases serr1 with
      | some e => rfl
      | none => exact absurd rfl hcase
    · rintro rfl hresp
      simp only [hresp, if_false]
      show getNum (addNum _ userIdentifier) userIdentifier = _
      rw [getNum_addNum_self]
      exact hw
    · rintro rfl
      show getNum (addNum _ userIdentifier) userIdentifier = _
      rw [getNum_addNum_self]
      exact hw
  · simp only [ht, hne, if_true, if_false]
    generalize s.chatGpt.SendChatCompletion s.gptState ctx userIdentifier content = p at hp
    generalize s.chatGpt.SendChatCompletionStream s.gptState ctx userIdentifier content
      = q at hq
    obtain ⟨⟨t1, err1⟩, st1⟩ := p
    obtain ⟨⟨h1, serr1⟩, st2⟩ := q
    simp only [Prod.mk.injEq] at hp hq
    obtain ⟨rfl, rfl⟩ := hp
    obtain ⟨rfl, rfl⟩ := hq
    refine ⟨⟨Client.chatGpt, ?_⟩, ⟨Client.chatGpt, ?_⟩, ?_, ?_, ?_, ?_⟩
    · cases err1 with
      | some e => rfl
      | none =>
        by_cases hresp : t1 = ""
        · simp [hresp]
        · simp [hresp, addNum]
    · cases serr1 with
      | some e => rfl
      | none => rfl
    · intro hcase v
      cases err1 with
      | some e => rfl
      | none =>
        have ht1 : t1 = "" := by simpa using hcase
        simp [ht1, getNum]
    · intro hcase v
      cases serr1 with
      | some e => rfl
      | none => exact absurd rfl hcase
    · rintro rfl hresp
      simp only [hresp, if_false]
      show getNum (addNum _ userIdentifier) userIdentifier = _
      rw [getNum_addNum_self]
      exact hw
    · rintro rfl
      show getNum (addNum _ userIdentifier) userIdentifier = _
      rw [getNum_addNum_self]
      exact hw

theorem cancelled_call_quota_witness :
    getNum (ChatCompletion (demoService 3 (ctxAwareClient "hi") (ctxAwareClient "ni hao"))
      cancelledCtx "" "u1" "hello").2 "u1" = 0 ∧
    getNum (ChatCompletionStream (demoService 3 (ctxAwareClient "hi") (ctxAwareClient "ni hao"))
      cancelledCtx "" "u1" "hello").2 "u1" = 0 ∧
    getNum (ChatCompletion demo cancelledCtx "" "u1" "hello").2 "u1" = 0 + 1 :=
  have h1 := cancelled_call_quota (demoService 3 (ctxAwareClient "hi") (ctxAwareClient "ni hao"))
    cancelledCtx "" "u1" "hello" "" (some ⟨"context canceled"⟩) none
    (some ⟨"context canceled"⟩) rfl (by decide) (by decide) (by decide)
    (Or.inr ⟨by decide, by decide, by decide⟩)
  have h2 := cancelled_call_quota demo cancelledCtx "" "u1" "hello" "hi" none
    (some ⟨["hi"], none⟩) none rfl (by decide) (by decide) (by decide)
    (Or.inr ⟨by decide, by decide, by decide⟩)
  ⟨h1.2.2.1 (Or.inl (by decide)) "u1", h1.2.2.2.1 (by decide) "u1",
    h2.2.2.2.2.1 rfl (by decide)⟩

/-! ## Over-admission by overlapping requests -/

theorem ChatCompletion_phases {σ : Type} (s : ChatService σ) (ctx : Context)
    (chatType : ChatType) (userIdentifier content : String) :
    ChatCompletion s ctx chatType userIdentifier content
      = match ChatCompletion_enter s ctx chatType userIdentifier content with
        | (Sum.inl res, s1) => (res, s1)
        | (Sum.inr r, s1) =>
          ChatCompletion_tail (ChatCompletion_switch s1 r).2 (ChatCompletion_switch s1 r).1 := by
  unfold ChatCompletion ChatCompletion_enter
  by_cases hlim : getNum s userIdentifier ≥ s.config.EverydayLimit
  · simp only [hlim, if_true]
  · simp only [hlim, if_false]
    unfold ChatCompletion_switch ChatCompletion_tail
    by_cases he : (if chatType = "" then s.config.DefaultChatMode else chatType) = ChatErnieBot
    · simp only [he, if_true]
    · simp only [he, if_false]
      by_cases hg : (if chatType = "" then s.config.DefaultChatMode else chatType) = ChatGPT
      · simp only [hg, if_true]
      · simp only [hg, if_false]

theorem ChatCompletionStream_phases {σ : Type} (s : ChatService σ) (ctx : Context)
    (chatType : ChatType) (userIdentifier content : String) :
    ChatCompletionStream s ctx chatType userIdentifier content
      = match ChatCompletionStream_enter s ctx chatType userIdentifier content with
        | (Sum.inl res, s1) => (res, s1)
        | (Sum.inr r, s1) =>
          ChatCompletionStream_tail (ChatCompletionStream_switch s1 r).2
            (ChatCompletionStream_switch s1 r).1 := by
  unfold ChatCompletionStream ChatCompletionStream_enter
  by_cases hlim : getNum s userIdentifier ≥ s.config.EverydayLimit
  · simp only [hlim, if_true]
  · simp only [hlim, if_false]
    unfold ChatCompletionStream_switch ChatCompletionStream_tail
    by_cases he : (if chatType = "" then s.config.DefaultChatMode else chatType) = ChatErnieBot
    · simp only [he, if_true]
    · simp only [he, if_false]
      by_cases hg : (if chatType = "" then s.config.DefaultChatMode else chatType) = ChatGPT
      · simp only [hg, if_true]
      · simp only [hg, if_false]

theorem ChatCompletion_switch_called {σ : Type} (s : ChatService σ) (r : InFlight) :
    (ChatCompletion_switch s r).1.called = true ∧
    (ChatCompletion_switch s r).1.stream = r.stream ∧
    (ChatCompletion_switch s r).1.userIdentifier = r.userIdentifier ∧
    (ChatCompletion_switch s r).2.userNum = s.userNum ∧
    (ChatCompletion_switch s r).2.config = s.config ∧
    (ChatCompletion_switch s r).2.day = s.day := by
  unfold ChatCompletion_switch
  split_ifs <;> exact ⟨rfl, rfl, rfl, rfl, rfl, rfl⟩

theorem ChatCompletionStream_switch_called {σ : Type} (s : ChatService σ) (r : InFlight) :
    (ChatCompletionStream_switch s r).1.called = true ∧
    (ChatCompletionStream_switch s r).1.stream = r.stream ∧
    (ChatCompletionStream_switch s r).1.userIdentifier = r.userIdentifier ∧
    (ChatCompletionStream_switch s r).2.userNum = s.userNum ∧
    (ChatCompletionStream_switch s r).2.config = s.config ∧
    (ChatCompletionStream_switch s r).2.day = s.day := by
  unfold ChatCompletionStream_switch
  split_ifs <;> exact ⟨rfl, rfl, rfl, rfl, rfl, rfl⟩

theorem ChatCompletion_enter_frame {σ : Type} (s : ChatService σ) (ctx : Context)
    (chatType : ChatType) (userIdentifier content : String) :
    (ChatCompletion_enter s ctx chatType userIdentifier content).2.userNum = s.userNum ∧
    (ChatCompletion_enter s ctx chatType userIdentifier content).2.config = s.config ∧
    ∀ r, (ChatCompletion_enter s ctx chatType userIdentifier content).1 = Sum.inr r →
      r.userIdentifier = userIdentifier ∧ r.called = false ∧ r.stream = false ∧
      getNum s userIdentifier < s.config.EverydayLimit := by
  unfold ChatCompletion_enter
  by_cases hlim : getNum s userIdentifier ≥ s.config.EverydayLimit
  · simp [hlim]
  · simp only [hlim, if_false]
    refine ⟨by simp, by simp, ?_⟩
    intro r hr
    have e := Sum.inr.inj hr
    subst e
    exact ⟨rfl, rfl, rfl, by omega⟩

theorem ChatCompletionStream_enter_frame {σ : Type} (s : ChatService σ) (ctx : Context)
    (chatType : ChatType) (userIdentifier content : String) :
    (ChatCompletionStream_enter s ctx chatType userIdentifier content).2.userNum = s.userNum ∧
    (ChatCompletionStream_enter s ctx chatType userIdentifier content).2.config = s.config ∧
    ∀ r, (ChatCompletionStream_enter s ctx chatType userIdentifier content).1 = Sum.inr r →
      r.userIdentifier = userIdentifier ∧ r.called = false ∧ r.stream = true ∧
      getNum s userIdentifier < s.config.EverydayLimit := by
  unfold ChatCompletionStream_enter
  by_cases hlim : getNum s userIdentifier ≥ s.config.EverydayLimit
  · simp [hlim]
  · simp only [hlim, if_false]
    refine ⟨by simp, by simp, ?_⟩
    intro r hr
    have e := Sum.inr.inj hr
    subst e
    exact ⟨rfl, rfl, rfl, by omega⟩

theorem ChatCompletion_tail_frame {σ : Type} (s : ChatService σ) (r : InFlight) :
    (ChatCompletion_tail s r).2.config = s.config ∧
    ((ChatCompletion_tail s r).2.userNum = s.userNum ∨
      (ChatCompletion_tail s r).2.userNum = (addNum s r.userIdentifier).userNum) := by
  unfold ChatCompletion_tail
  cases r.err with
  | some e => exact ⟨rfl, Or.inl rfl⟩
  | none =>
    by_cases hresp : r.resp = ""
    · simp only [hresp, if_true]
      exact ⟨trivial, Or.inl trivial⟩
    · simp [hresp, addNum]

theorem ChatCompletionStream_tail_frame {σ : Type} (s : ChatService σ) (r : InFlight) :
    (ChatCompletionStream_tail s r).2.config = s.config ∧
    ((ChatCompletionStream_tail s r).2.userNum = s.userNum ∨
      (ChatCompletionStream_tail s r).2.userNum = (addNum s r.userIdentifier).userNum) := by
  unfold ChatCompletionStream_tail
  cases r.err with
  | some e => exact ⟨rfl, Or.inl rfl⟩
  | none => exact ⟨rfl, Or.inr rfl⟩

/-- A call of `ChatCompletion` that runs its three parts with no other request
in flight leaves the service as the call itself does. -/
theorem soloRound_run {σ : Type} (s : ChatService σ) (ctx : Context)
    (chatType : ChatType) (userIdentifier content : String) :
    runEvents ⟨s, []⟩ (soloRound ctx chatType userIdentifier content)
      = ⟨(ChatCompletion s ctx chatType userIdentifier content).2, []⟩ := by
  rw [ChatCompletion_phases]
  have hf := ChatCompletion_enter_frame s ctx chatType userIdentifier content
  simp only [soloRound, runEvents, List.foldl_cons, List.foldl_nil, concStep, Bool.false_eq_true,
    if_false, if_true]
  generalize ChatCompletion_enter s ctx chatType userIdentifier content = p at hf
  obtain ⟨res | r, s1⟩ := p
  · simp
  · obtain ⟨_, hc, hs, _⟩ := hf.2.2 r rfl
    have hsw := ChatCompletion_switch_called s1 r
    simp [hc, hs, hsw.1, hsw.2.1]

/-- A call of `ChatCompletionStream` that runs its three parts with no other
request in flight leaves the service as the call itself does. -/
theorem soloStreamRound_run {σ : Type} (s : ChatService σ) (ctx : Context)
    (chatType : ChatType) (userIdentifier content : String) :
    runEvents ⟨s, []⟩ (soloStreamRound ctx chatType userIdentifier content)
      = ⟨(ChatCompletionStream s ctx chatType userIdentifier content).2, []⟩ := by
  rw [ChatCompletionStream_phases]
  have hf := ChatCompletionStream_enter_frame s ctx chatType userIdentifier content
  simp only [soloStreamRound, runEvents, List.foldl_cons, List.foldl_nil, concStep, Bool.false_eq_true,
    if_false, if_true]
  generalize ChatCompletionStream_enter s ctx chatType userIdentifier content = p at hf
  obtain ⟨res | r, s1⟩ := p
  · simp
  · obtain ⟨_, hc, hs, _⟩ := hf.2.2 r rfl
    have hsw := ChatCompletionStream_switch_called s1 r
    simp [hc, hs, hsw.1, hsw.2.1]

theorem pendingFor_cons (u : String) (a : InFlight) (l : List InFlight) :
    pendingFor u (a :: l) = pendingFor u l + (if a.userIdentifier = u then 1 else 0) := by
  by_cases h : a.userIdentifier = u
  · simp [pendingFor, List.countP_cons, h]
  · simp [pendingFor, List.countP_cons, h]

theorem pendingFor_append_one (u : String) (l : List InFlight) (a : InFlight) :
    pendingFor u (l ++ [a]) = pendingFor u l + (if a.userIdentifier = u then 1 else 0) := by
  induction l with
  | nil =>
    show pendingFor u [a] = _
    rw [pendingFor_cons]
  | cons b rest ih =>
    rw [List.cons_append, pendingFor_cons, pendingFor_cons, ih]
    omega

theorem pendingFor_set (u : String) (l : List InFlight) (i : Nat) (r r1 : InFlight)
    (h : l[i]? = some r) (hu : r1.userIdentifier = r.userIdentifier) :
    pendingFor u (l.set i r1) = pendingFor u l := by
  induction l generalizing i with
  | nil => simp at h
  | cons b rest ih =>
    cases i with
    | zero =>
      simp only [List.getElem?_cons_zero, Option.some.injEq] at h
      subst h
      simp only [List.set_cons_zero, pendingFor_cons, hu]
    | succ j =>
      simp only [List.getElem?_cons_succ] at h
      simp only [List.set_cons_succ, pendingFor_cons, ih j h]

theorem pendingFor_eraseIdx (u : String) (l : List InFlight) (i : Nat) (r : InFlight)
    (h : l[i]? = some r) :
    pendingFor u (l.eraseIdx i) + (if r.userIdentifier = u then 1 else 0) = pendingFor u l := by
  induction l generalizing i with
  | nil => simp at h
  | cons b rest ih =>
    cases i with
    | zero =>
      simp only [List.getElem?_cons_zero, Option.some.injEq] at h
      subst h
      simp only [List.eraseIdx_cons_zero, pendingFor_cons]
    | succ j =>
      simp only [List.getElem?_cons_succ] at h
      have := ih j h
      simp only [List.eraseIdx_cons_succ, pendingFor_cons]
      omega

/-- What an `enter` step does: the counts and the configuration are kept, and
either no request is added or one request of the entering user is added, which
happens only when that user's count is below the limit. -/
theorem concStep_enter {σ : Type} (c : Concurrent σ) (stream : Bool) (ctx : Context)
    (chatType : ChatType) (userIdentifier content : String) :
    (concStep c (Event.enter stream ctx chatType userIdentifier content)).svc.userNum
      = c.svc.userNum ∧
    (concStep c (Event.enter stream ctx chatType userIdentifier content)).svc.config
      = c.svc.config ∧
    ((concStep c (Event.enter stream ctx chatType userIdentifier content)).inFlight
        = c.inFlight ∨
      (getNum c.svc userIdentifier < c.svc.config.EverydayLimit ∧
        ∃ r : InFlight, r.userIdentifier = userIdentifier ∧
          (concStep c (Event.enter stream ctx chatType userIdentifier content)).inFlight
            = c.inFlight ++ [r])) := by
  cases stream with
  | true =>
    have hf := ChatCompletionStream_enter_frame c.svc ctx chatType userIdentifier content
    simp only [concStep, if_true]
    generalize ChatCompletionStream_enter c.svc ctx chatType userIdentifier content = p at hf
    obtain ⟨res | r, s1⟩ := p
    · exact ⟨hf.1, hf.2.1, Or.inl rfl⟩
    · obtain ⟨hu, _, _, hlt⟩ := hf.2.2 r rfl
      exact ⟨hf.1, hf.2.1, Or.inr ⟨hlt, r, hu, rfl⟩⟩
  | false =>
    have hf := ChatCompletion_enter_frame c.svc ctx chatType userIdentifier content
    simp only [concStep, Bool.false_eq_true, if_false]
    generalize ChatCompletion_enter c.svc ctx chatType userIdentifier content = p at hf
    obtain ⟨res | r, s1⟩ := p
    · exact ⟨hf.1, hf.2.1, Or.inl rfl⟩
    · obtain ⟨hu, _, _, hlt⟩ := hf.2.2 r rfl
      exact ⟨hf.1, hf.2.1, Or.inr ⟨hlt, r, hu, rfl⟩⟩

/-- What a `switch` step does: the counts, the configuration and the number of
each user's requests in flight are kept. -/
theorem concStep_switch {σ : Type} (c : Concurrent σ) (i : Nat) :
    (concStep c (Event.switch i)).svc.userNum = c.svc.userNum ∧
    (concStep c (Event.switch i)).svc.config = c.svc.config ∧
    ∀ u, pendingFor u (concStep c (Event.switch i)).inFlight = pendingFor u c.inFlight := by
  simp only [concStep]
  cases hget : c.inFlight[i]? with
  | none => exact ⟨rfl, rfl, fun _ => rfl⟩
  | some r =>
    by_cases hc : r.called = true
    · simp only [hc, if_true]
      exact ⟨trivial, trivial, fun _ => trivial⟩
    · by_cases hs : r.stream = true
      · have h := ChatCompletionStream_switch_called c.svc r
        simp only [hc, hs, if_true, if_false]
        exact ⟨h.2.2.2.1, h.2.2.2.2.1, fun u => pendingFor_set u _ i r _ hget h.2.2.1⟩
      · have h := ChatCompletion_switch_called c.svc r
        simp only [hc, hs, if_false]
        exact ⟨h.2.2.2.1, h.2.2.2.2.1, fun u => pendingFor_set u _ i r _ hget h.2.2.1⟩

/-- What a `tail` step does: the configuration is kept, and either nothing
changes or the request at `i` leaves the list, with the counts kept or with one
`addNum` for the user of that request. -/
theorem concStep_tail {σ : Type} (c : Concurrent σ) (i : Nat) :
    (concStep c (Event.tail i)).svc.config = c.svc.config ∧
    (((concStep c (Event.tail i)).svc.userNum = c.svc.userNum ∧
        (concStep c (Event.tail i)).inFlight = c.inFlight) ∨
      ∃ r : InFlight, c.inFlight[i]? = some r ∧
        (concStep c (Event.tail i)).inFlight = c.inFlight.eraseIdx i ∧
        ((concStep c (Event.tail i)).svc.userNum = c.svc.userNum ∨
          (concStep c (Event.tail i)).svc.userNum
            = (addNum c.svc r.userIdentifier).userNum)) := by
  cases hget : c.inFlight[i]? with
  | none =>
    have e : concStep c (Event.tail i) = c := by simp [concStep, hget]
    rw [e]
    exact ⟨rfl, Or.inl ⟨rfl, rfl⟩⟩
  | some r =>
    by_cases hc : r.called = true
    · by_cases hs : r.stream = true
      · have h := ChatCompletionStream_tail_frame c.svc r
        have e : concStep c (Event.tail i)
            = ⟨(ChatCompletionStream_tail c.svc r).2, c.inFlight.eraseIdx i⟩ := by
          simp [concStep, hget, hc, hs]
        rw [e]
        exact ⟨h.1, Or.inr ⟨r, rfl, rfl, h.2⟩⟩
      · have h := ChatCompletion_tail_frame c.svc r
        have e : concStep c (Event.tail i)
            = ⟨(ChatCompletion_tail c.svc r).2, c.inFlight.eraseIdx i⟩ := by
          simp [concStep, hget, hc, hs]
        rw [e]
        exact ⟨h.1, Or.inr ⟨r, rfl, rfl, h.2⟩⟩
    · have e : concStep c (Event.tail i) = c := by simp [concStep, hget, hc]
      rw [e]
      exact ⟨rfl, Or.inl ⟨rfl, rfl⟩⟩

theorem OverAdmissionBound_step {σ : Type} (k : Nat) (u : String) (c : Concurrent σ)
    (ev : Event) (h0 : 0 ≤ c.svc.config.EverydayLimit)
    (hmax : c.svc.config.EverydayLimit + ((k : Int) - 1) ≤ maxInt)
    (hpeak : pendingFor u (concStep c ev).inFlight ≤ k)
    (inv : OverAdmissionBound k u c) :
    OverAdmissionBound k u (concStep c ev) ∧
    (concStep c ev).svc.config = c.svc.config := by
  obtain ⟨hnn, hone, hsum⟩ := inv
  unfold maxInt at hmax
  unfold OverAdmissionBound
  cases ev with
  | enter stream ctx chatType userIdentifier content =>
    obtain ⟨hnum, hcfg, hfl⟩ :=
      concStep_enter c stream ctx chatType userIdentifier content
    have hg := getNum_congr c.svc _ hnum u
    rw [hg, hcfg]
    rcases hfl with hsame | ⟨hlt, r, hru, hadd⟩
    · rw [hsame]
      exact ⟨⟨hnn, hone, hsum⟩, rfl⟩
    · rw [hadd] at hpeak ⊢
      rw [pendingFor_append_one] at hpeak ⊢
      by_cases hu : r.userIdentifier = u
      · have hlt2 : getNum c.svc u < c.svc.config.EverydayLimit := by
          rw [← hu, hru]
          exact hlt
        simp only [hu, if_true] at hpeak ⊢
        refine ⟨⟨hnn, fun _ => by omega, ?_⟩, trivial⟩
        push_cast
        omega
      · simp only [hu, if_false, Nat.add_zero] at hpeak ⊢
        exact ⟨⟨hnn, hone, hsum⟩, trivial⟩
  | switch i =>
    obtain ⟨hnum, hcfg, hpend⟩ := concStep_switch c i
    have hg := getNum_congr c.svc _ hnum u
    rw [hg, hcfg, hpend u]
    exact ⟨⟨hnn, hone, hsum⟩, rfl⟩
  | tail i =>
    obtain ⟨hcfg, hcase⟩ := concStep_tail c i
    rw [hcfg]
    rcases hcase with ⟨hnum, hfl⟩ | ⟨r, hget, hfl, hnum⟩
    · rw [getNum_congr c.svc _ hnum u, hfl]
      exact ⟨⟨hnn, hone, hsum⟩, rfl⟩
    · have her := pendingFor_eraseIdx u c.inFlight i r hget
      rw [hfl]
      by_cases hu : r.userIdentifier = u
      · simp only [hu, if_true] at her
        rcases hnum with hnum | hnum
        · rw [getNum_congr c.svc _ hnum u]
          exact ⟨⟨hnn, fun _ => hone (by omega), by omega⟩, rfl⟩
        · have hw : wrapInt (getNum c.svc u + 1) = getNum c.svc u + 1 := by
            apply wrapInt_of_isInt
            unfold isInt minInt maxInt
            constructor <;> omega
          rw [getNum_congr (addNum c.svc r.userIdentifier) _ hnum u, hu, getNum_addNum_self, hw]
          exact ⟨⟨by omega, fun _ => hone (by omega), by omega⟩, rfl⟩
      · simp only [hu, if_false, Nat.add_zero] at her
        have hg : getNum (concStep c (Event.tail i)).svc u = getNum c.svc u := by
          rcases hnum with hnum | hnum
          · exact getNum_congr c.svc _ hnum u
          · rw [getNum_congr (addNum c.svc r.userIdentifier) _ hnum u]
            exact getNum_addNum_other _ _ _ (fun e => hu e.symm)
        rw [hg, her]
        exact ⟨⟨hnn, hone, hsum⟩, rfl⟩
  | reset t =>
    by_cases hd : c.svc.day = t
    · have e : concStep c (Event.reset t) = c := by
        simp [concStep, reset, hd]
      rw [e]
      exact ⟨⟨hnn, hone, hsum⟩, rfl⟩
    · have hcfg : (concStep c (Event.reset t)).svc.config = c.svc.config := by
        simp [concStep, reset, hd]
      have hzero : getNum (concStep c (Event.reset t)).svc u = 0 := by
        simp [concStep, reset, hd, getNum]
      have hfl : (concStep c (Event.reset t)).inFlight = c.inFlight := rfl
      rw [hfl] at hpeak
      rw [hzero, hcfg, hfl]
      refine ⟨⟨le_refl _, hone, ?_⟩, rfl⟩
      by_cases hp : 0 < pendingFor u c.inFlight
      · have := hone hp
        omega
      · omega

theorem pendingFor_le_peakFor {σ : Type} (u : String) (c : Concurrent σ)
    (events : List Event) : pendingFor u c.inFlight ≤ peakFor u c events := by
  cases events with
  | nil => exact le_refl _
  | cons ev rest => exact le_max_left _ _

theorem OverAdmissionBound_run {σ : Type} (k : Nat) (u : String) (events : List Event)
    (c : Concurrent σ) (h0 : 0 ≤ c.svc.config.EverydayLimit)
    (hmax : c.svc.config.EverydayLimit + ((k : Int) - 1) ≤ maxInt)
    (hpeak : peakFor u c events ≤ k)
    (inv : OverAdmissionBound k u c) :
    OverAdmissionBound k u (runEvents c events) ∧
    (runEvents c events).svc.config = c.svc.config := by
  induction events generalizing c with
  | nil => exact ⟨inv, rfl⟩
  | cons ev rest ih =>
    have hrest : peakFor u (concStep c ev) rest ≤ k :=
      le_trans (le_max_right _ _) hpeak
    have hnext : pendingFor u (concStep c ev).inFlight ≤ k :=
      le_trans (pendingFor_le_peakFor u _ rest) hrest
    have hstep := OverAdmissionBound_step k u c ev h0 hmax hnext inv
    have hrec := ih (concStep c ev) (by rw [hstep.2]; exact h0)
      (by rw [hstep.2]; exact hmax) hrest hstep.1
    exact ⟨hrec.1, hrec.2.trans hstep.2⟩

theorem runEvents_append {σ : Type} (c : Concurrent σ) (a b : List Event) :
    runEvents c (a ++ b) = runEvents (runEvents c a) b := by
  simp [runEvents, List.foldl_append]

theorem concStep_enter_pass {σ : Type} (c : Concurrent σ) (ctx : Context)
    (chatType : ChatType) (userIdentifier content : String)
    (hlt : getNum c.svc userIdentifier < c.svc.config.EverydayLimit) (ht : chatType ≠ "") :
    concStep c (Event.enter false ctx chatType userIdentifier content)
      = ⟨{ c.svc with
            logger := c.svc.logger ++
              [⟨some chatType, userIdentifier, "receive content:" ++ content⟩] },
          c.inFlight ++
            [⟨false, ctx, chatType, userIdentifier, content, false, "", none, none⟩]⟩ := by
  have hnl : ¬ getNum c.svc userIdentifier ≥ c.svc.config.EverydayLimit := by omega
  simp [concStep, ChatCompletion_enter, hnl, ht]

theorem concStep_switch_chatGpt {σ : Type} (c : Concurrent σ) (i : Nat) (r : InFlight)
    (hget : c.inFlight[i]? = some r) (hc : r.called = false) (hs : r.stream = false)
    (ht : r.chatType = ChatGPT) :
    concStep c (Event.switch i)
      = ⟨{ c.svc with
            gptState := (c.svc.chatGpt.SendChatCompletion c.svc.gptState r.ctx
              r.userIdentifier r.content).2
            calls := c.svc.calls ++
              [Call.SendChatCompletion Client.chatGpt r.ctx r.userIdentifier r.content
                (c.svc.chatGpt.SendChatCompletion c.svc.gptState r.ctx r.userIdentifier
                  r.content).1.1
                (c.svc.chatGpt.SendChatCompletion c.svc.gptState r.ctx r.userIdentifier
                  r.content).1.2] },
          c.inFlight.set i { r with
            called := true
            resp := (c.svc.chatGpt.SendChatCompletion c.svc.gptState r.ctx r.userIdentifier
              r.content).1.1
            err := (c.svc.chatGpt.SendChatCompletion c.svc.gptState r.ctx r.userIdentifier
              r.content).1.2 }⟩ := by
  have hne : ¬ (ChatGPT = ChatErnieBot) := by decide
  simp [concStep, hget, hc, hs, ChatCompletion_switch, ht, hne]

theorem concStep_tail_charge {σ : Type} (c : Concurrent σ) (i : Nat) (r : InFlight)
    (hget : c.inFlight[i]? = some r) (hc : r.called = true) (hs : r.stream = false)
    (herr : r.err = none) (hresp : r.resp ≠ "") :
    concStep c (Event.tail i) = ⟨addNum c.svc r.userIdentifier, c.inFlight.eraseIdx i⟩ := by
  simp [concStep, hget, hc, hs, ChatCompletion_tail, herr, hresp]

theorem concStep_enter_admit {σ : Type} (c : Concurrent σ) (ctx : Context)
    (chatType : ChatType) (userIdentifier content : String)
    (hlt : getNum c.svc userIdentifier < c.svc.config.EverydayLimit) (ht : chatType ≠ "") :
    ∃ s1 : ChatService σ,
      concStep c (Event.enter false ctx chatType userIdentifier content)
        = ⟨s1, c.inFlight ++
            [⟨false, ctx, chatType, userIdentifier, content, false, "", none, none⟩]⟩ ∧
      s1.userNum = c.svc.userNum ∧ s1.config = c.svc.config ∧ s1.chatGpt = c.svc.chatGpt :=
  ⟨_, concStep_enter_pass c ctx chatType userIdentifier content hlt ht, rfl, rfl, rfl⟩

theorem concStep_switch_answer {σ : Type} (c : Concurrent σ) (i : Nat) (r : InFlight)
    (reply : String)
    (hans : ∀ st ctx v cnt, (c.svc.chatGpt.SendChatCompletion st ctx v cnt).1 = (reply, none))
    (hget : c.inFlight[i]? = some r) (hc : r.called = false) (hs : r.stream = false)
    (ht : r.chatType = ChatGPT) :
    ∃ s1 : ChatService σ,
      concStep c (Event.switch i)
        = ⟨s1, c.inFlight.set i { r with called := true, resp := reply, err := none }⟩ ∧
      s1.userNum = c.svc.userNum ∧ s1.config = c.svc.config ∧ s1.chatGpt = c.svc.chatGpt := by
  have h := hans c.svc.gptState r.ctx r.userIdentifier r.content
  have e := concStep_switch_chatGpt c i r hget hc hs ht
  rw [h] at e
  exact ⟨_, e, rfl, rfl, rfl⟩

theorem raceOfTwo_run {σ : Type} (s : ChatService σ) (u reply : String) (hr : reply ≠ "")
    (hans : ∀ st ctx v cnt, (s.chatGpt.SendChatCompletion st ctx v cnt).1 = (reply, none))
    (hn0 : 0 ≤ getNum s u) (hn : getNum s u + 1 = s.config.EverydayLimit)
    (hL : s.config.EverydayLimit + 1 ≤ maxInt) :
    pendingFor u (runEvents ⟨s, []⟩ [Event.enter false bgCtx "chatgpt" u "hello",
      Event.enter false bgCtx "chatgpt" u "hello"]).inFlight = 2 ∧
    getNum (runEvents ⟨s, []⟩ [Event.enter false bgCtx "chatgpt" u "hello",
      Event.enter false bgCtx "chatgpt" u "hello"]).svc u = getNum s u ∧
    getNum (runEvents ⟨s, []⟩ (raceOfTwo u)).svc u = s.config.EverydayLimit + 1 ∧
    peakFor u ⟨s, []⟩ (raceOfTwo u) = 2 ∧
    (runEvents ⟨s, []⟩ (raceOfTwo u)).inFlight = [] ∧
    (runEvents ⟨s, []⟩ (raceOfTwo u)).svc.config = s.config := by
  have hlt : getNum s u < s.config.EverydayLimit := by omega
  have hw1 : wrapInt (getNum s u + 1) = getNum s u + 1 := by
    apply wrapInt_of_isInt
    unfold isInt minInt maxInt
    unfold maxInt at hL
    constructor <;> omega
  have hw2 : wrapInt (getNum s u + 1 + 1) = getNum s u + 1 + 1 := by
    apply wrapInt_of_isInt
    unfold isInt minInt maxInt
    unfold maxInt at hL
    constructor <;> omega
  obtain ⟨s1, e1, h1n, h1c, h1g⟩ :=
    concStep_enter_admit ⟨s, []⟩ bgCtx "chatgpt" u "hello" hlt (by decide)
  simp only [List.nil_append] at e1 h1n h1c h1g
  have hlt1 : getNum s1 u < s1.config.EverydayLimit := by
    rw [getNum_congr s s1 h1n, h1c]
    exact hlt
  obtain ⟨s2, e2, h2n, h2c, h2g⟩ := concStep_enter_admit
    ⟨s1, [⟨false, bgCtx, "chatgpt", u, "hello", false, "", none, none⟩]⟩
    bgCtx "chatgpt" u "hello" hlt1 (by decide)
  simp only [List.singleton_append] at e2 h2n h2c h2g
  have hans2 : ∀ st ctx v cnt,
      (s2.chatGpt.SendChatCompletion st ctx v cnt).1 = (reply, none) := by
    rw [h2g, h1g]
    exact hans
  obtain ⟨s3, e3, h3n, h3c, h3g⟩ := concStep_switch_answer
    ⟨s2, [⟨false, bgCtx, "chatgpt", u, "hello", false, "", none, none⟩,
      ⟨false, bgCtx, "chatgpt", u, "hello", false, "", none, none⟩]⟩
    0 ⟨false, bgCtx, "chatgpt", u, "hello", false, "", none, none⟩ reply hans2
    rfl rfl rfl rfl
  simp only [List.set_cons_zero] at e3 h3n h3c h3g
  have hans3 : ∀ st ctx v cnt,
      (s3.chatGpt.SendChatCompletion st ctx v cnt).1 = (reply, none) := by
    rw [h3g]
    exact hans2
  obtain ⟨s4, e4, h4n, h4c, _⟩ := concStep_switch_answer
    ⟨s3, [⟨false, bgCtx, "chatgpt", u, "hello", true, reply, none, none⟩,
      ⟨false, bgCtx, "chatgpt", u, "hello", false, "", none, none⟩]⟩
    1 ⟨false, bgCtx, "chatgpt", u, "hello", false, "", none, none⟩ reply hans3
    rfl rfl rfl rfl
  simp only [List.set_cons_succ, List.set_cons_zero] at e4 h4n h4c
  have e5 := concStep_tail_charge
    ⟨s4, [⟨false, bgCtx, "chatgpt", u, "hello", true, reply, none, none⟩,
      ⟨false, bgCtx, "chatgpt", u, "hello", true, reply, none, none⟩]⟩
    0 ⟨false, bgCtx, "chatgpt", u, "hello", true, reply, none, none⟩ rfl rfl rfl rfl hr
  simp only [List.eraseIdx_cons_zero] at e5
  have e6 := concStep_tail_charge
    ⟨addNum s4 u, [⟨false, bgCtx, "chatgpt", u, "hello", true, reply, none, none⟩]⟩
    0 ⟨false, bgCtx, "chatgpt", u, "hello", true, reply, none, none⟩ rfl rfl rfl rfl hr
  simp only [List.eraseIdx_cons_zero] at e6
  have h4n' : s4.userNum = s.userNum := by rw [h4n, h3n, h2n, h1n]
  have h4c' : s4.config = s.config := by rw [h4c, h3c, h2c, h1c]
  have h2n' : s2.userNum = s.userNum := by rw [h2n, h1n]
  have hg4 : getNum s4 u = getNum s u := getNum_congr s s4 h4n' u
  have hfinal : getNum (addNum (addNum s4 u) u) u = s.config.EverydayLimit + 1 := by
    rw [getNum_addNum_self, getNum_addNum_self, hg4, hw1, hw2]
    omega
  have run2 : runEvents ⟨s, []⟩ [Event.enter false bgCtx "chatgpt" u "hello",
      Event.enter false bgCtx "chatgpt" u "hello"]
      = ⟨s2, [⟨false, bgCtx, "chatgpt", u, "hello", false, "", none, none⟩,
          ⟨false, bgCtx, "chatgpt", u, "hello", false, "", none, none⟩]⟩ := by
    simp only [runEvents, List.foldl_cons, List.foldl_nil, e1, e2]
  have run6 : runEvents ⟨s, []⟩ (raceOfTwo u) = ⟨addNum (addNum s4 u) u, []⟩ := by
    simp only [raceOfTwo, runEvents, List.foldl_cons, List.foldl_nil, e1, e2, e3, e4, e5, e6]
  have hp : peakFor u ⟨s, []⟩ (raceOfTwo u) = 2 := by
    simp only [raceOfTwo, peakFor, e1, e2, e3, e4, e5, e6]
    simp [pendingFor]
  rw [run2, run6]
  refine ⟨by simp [pendingFor], getNum_congr s s2 h2n' u, hfinal, hp, rfl, ?_⟩
  show (addNum (addNum s4 u) u).config = s.config
  exact h4c'

theorem peakFor_append {σ : Type} (u : String) (a b : List Event) (c : Concurrent σ) :
    peakFor u c (a ++ b) = max (peakFor u c a) (peakFor u (runEvents c a) b) := by
  induction a generalizing c with
  | nil =>
    have h := pendingFor_le_peakFor u c b
    simp only [List.nil_append, peakFor, runEvents, List.foldl_nil]
    omega
  | cons ev rest ih =>
    have e : runEvents c (ev :: rest) = runEvents (concStep c ev) rest := rfl
    rw [List.cons_append, e]
    simp only [peakFor, ih]
    omega

theorem soloRound_answered {σ : Type} (s : ChatService σ) (u reply : String) (hr : reply ≠ "")
    (hans : ∀ st ctx v cnt, (s.chatGpt.SendChatCompletion st ctx v cnt).1 = (reply, none))
    (hlt : getNum s u < s.config.EverydayLimit) :
    ∃ s1 : ChatService σ,
      runEvents ⟨s, []⟩ (soloRound bgCtx "chatgpt" u "hello") = ⟨addNum s1 u, []⟩ ∧
      s1.userNum = s.userNum ∧ s1.config = s.config ∧ s1.chatGpt = s.chatGpt ∧
      peakFor u ⟨s, []⟩ (soloRound bgCtx "chatgpt" u "hello") = 1 := by
  obtain ⟨s1, e1, h1n, h1c, h1g⟩ :=
    concStep_enter_admit ⟨s, []⟩ bgCtx "chatgpt" u "hello" hlt (by decide)
  simp only [List.nil_append] at e1 h1n h1c h1g
  have hans1 : ∀ st ctx v cnt,
      (s1.chatGpt.SendChatCompletion st ctx v cnt).1 = (reply, none) := by
    rw [h1g]
    exact hans
  obtain ⟨s2, e2, h2n, h2c, h2g⟩ := concStep_switch_answer
    ⟨s1, [⟨false, bgCtx, "chatgpt", u, "hello", false, "", none, none⟩]⟩
    0 ⟨false, bgCtx, "chatgpt", u, "hello", false, "", none, none⟩ reply hans1
    rfl rfl rfl rfl
  simp only [List.set_cons_zero] at e2 h2n h2c h2g
  have e3 := concStep_tail_charge
    ⟨s2, [⟨false, bgCtx, "chatgpt", u, "hello", true, reply, none, none⟩]⟩
    0 ⟨false, bgCtx, "chatgpt", u, "hello", true, reply, none, none⟩ rfl rfl rfl rfl hr
  simp only [List.eraseIdx_cons_zero] at e3
  refine ⟨s2, ?_, by rw [h2n, h1n], by rw [h2c, h1c], by rw [h2g, h1g], ?_⟩
  · simp only [soloRound, runEvents, List.foldl_cons, List.foldl_nil, e1, e2, e3]
  · simp only [soloRound, peakFor, e1, e2, e3]
    simp [pendingFor]

theorem soloRounds_run {σ : Type} (u reply : String) (hr : reply ≠ "") (n : Nat)
    (s : ChatService σ)
    (hans : ∀ st ctx v cnt, (s.chatGpt.SendChatCompletion st ctx v cnt).1 = (reply, none))
    (hn0 : 0 ≤ getNum s u) (hn : getNum s u + (n : Int) ≤ s.config.EverydayLimit)
    (hL : s.config.EverydayLimit ≤ maxInt) :
    ∃ s1 : ChatService σ,
      runEvents ⟨s, []⟩ (soloRounds n u) = ⟨s1, []⟩ ∧
      getNum s1 u = getNum s u + (n : Int) ∧ s1.config = s.config ∧
      s1.chatGpt = s.chatGpt ∧
      peakFor u ⟨s, []⟩ (soloRounds n u) ≤ 1 := by
  induction n generalizing s with
  | zero =>
    refine ⟨s, rfl, by simp, rfl, rfl, ?_⟩
    simp [soloRounds, peakFor, pendingFor]
  | succ n ih =>
    have hlt : getNum s u < s.config.EverydayLimit := by
      push_cast at hn
      omega
    have hw : wrapInt (getNum s u + 1) = getNum s u + 1 := by
      apply wrapInt_of_isInt
      unfold isInt minInt maxInt
      unfold maxInt at hL
      constructor <;> omega
    obtain ⟨s1, e1, h1n, h1c, h1g, hp1⟩ := soloRound_answered s u reply hr hans hlt
    have hg : getNum (addNum s1 u) u = getNum s u + 1 := by
      rw [getNum_addNum_self, getNum_congr s s1 h1n, hw]
    have hcfg : (addNum s1 u).config = s.config := h1c
    have hgpt : (addNum s1 u).chatGpt = s.chatGpt := h1g
    obtain ⟨s2, e2, h2g, h2c, h2p, hp2⟩ := ih (addNum s1 u)
      (by rw [hgpt]; exact hans)
      (by rw [hg]; omega)
      (by
        rw [hg, hcfg]
        push_cast at hn
        omega)
      (by rw [hcfg]; exact hL)
    refine ⟨s2, ?_, ?_, h2c.trans hcfg, h2p.trans hgpt, ?_⟩
    · show runEvents ⟨s, []⟩ (soloRound bgCtx "chatgpt" u "hello" ++ soloRounds n u) = _
      rw [runEvents_append, e1, e2]
    · rw [h2g, hg]
      push_cast
      omega
    · show peakFor u ⟨s, []⟩ (soloRound bgCtx "chatgpt" u "hello" ++ soloRounds n u) ≤ 1
      rw [peakFor_append, e1, hp1]
      omega

/-- C16: over-admission by overlapping requests is bounded.  Requests are
calls of `ChatCompletion` and `ChatCompletionStream` cut into their three
parts, and a request that runs its parts alone leaves the service as the call
itself does.  In every interleaving of such requests and of `reset` from a
freshly constructed service in which at most `k` requests of user `u` are in
flight at a time, the count of `u` never exceeds the daily limit plus `k - 1`.
When `k` is at least two, the limit at least one and the `chatgpt` client
answers, there is such an interleaving in which two requests of `u` both pass
the limit check before either reaches `addNum`, and after it the count of `u`
is the limit plus one. -/
theorem concurrent_over_admission {σ : Type} (init : ChatConfig → ChatConfig)
    (config : ChatConfig) (chatGpt ernieBot : ChatClient σ) (gptState ernieState : σ)
    (today : Int) (k : Nat) (u : String)
    (hk : 1 ≤ k) (h0 : 0 ≤ (init config).EverydayLimit)
    (hmax : (init config).EverydayLimit + ((k : Int) - 1) ≤ maxInt) :
    (∀ (s : ChatService σ) (ctx : Context) (chatType : ChatType) (v content : String),
      runEvents ⟨s, []⟩ (soloRound ctx chatType v content)
        = ⟨(ChatCompletion s ctx chatType v content).2, []⟩ ∧
      runEvents ⟨s, []⟩ (soloStreamRound ctx chatType v content)
        = ⟨(ChatCompletionStream s ctx chatType v content).2, []⟩) ∧
    (∀ events : List Event,
      peakFor u ⟨NewChatService init config chatGpt ernieBot gptState ernieState today, []⟩
        events ≤ k →
      getNum (runEvents
          ⟨NewChatService init config chatGpt ernieBot gptState ernieState today, []⟩
          events).svc u
        ≤ (init config).EverydayLimit + ((k : Int) - 1)) ∧
    (2 ≤ k → 1 ≤ (init config).EverydayLimit →
      ∀ reply : String, reply ≠ "" →
      (∀ st ctx v cnt, (chatGpt.SendChatCompletion st ctx v cnt).1 = (reply, none)) →
      ∃ before : List Event,
        peakFor u ⟨NewChatService init config chatGpt ernieBot gptState ernieState today, []⟩
          (before ++ raceOfTwo u) ≤ k ∧
        pendingFor u (runEvents
          ⟨NewChatService init config chatGpt ernieBot gptState ernieState today, []⟩
          (before ++ [Event.enter false bgCtx "chatgpt" u "hello",
            Event.enter false bgCtx "chatgpt" u "hello"])).inFlight = 2 ∧
        getNum (runEvents
          ⟨NewChatService init config chatGpt ernieBot gptState ernieState today, []⟩
          (before ++ [Event.enter false bgCtx "chatgpt" u "hello",
            Event.enter false bgCtx "chatgpt" u "hello"])).svc u
          < (init config).EverydayLimit ∧
        getNum (runEvents
          ⟨NewChatService init config chatGpt ernieBot gptState ernieState today, []⟩
          (before ++ raceOfTwo u)).svc u
          = (init config).EverydayLimit + 1) := by
  have hzero : ∀ v,
      getNum (NewChatService init config chatGpt ernieBot gptState ernieState today) v = 0 := by
    intro v
    simp [NewChatService, getNum]
  refine ⟨fun s ctx chatType v content =>
    ⟨soloRound_run s ctx chatType v content, soloStreamRound_run s ctx chatType v content⟩,
    ?_, ?_⟩
  · intro events hpeak
    have inv0 : OverAdmissionBound k u
        (⟨NewChatService init config chatGpt ernieBot gptState ernieState today, []⟩ :
          Concurrent σ) := by
      refine ⟨?_, ?_, ?_⟩
      · show 0 ≤ getNum (NewChatService init config chatGpt ernieBot gptState ernieState today) u
        rw [hzero u]
      · intro h
        simp [pendingFor] at h
      · show getNum (NewChatService init config chatGpt ernieBot gptState ernieState today) u
          + ((pendingFor u [] : Nat) : Int) + 1 ≤ (init config).EverydayLimit + (k : Int)
        rw [hzero u]
        simp only [pendingFor, List.countP_nil]
        omega
    have h := OverAdmissionBound_run k u events
      ⟨NewChatService init config chatGpt ernieBot gptState ernieState today, []⟩
      h0 hmax hpeak inv0
    have hcf : (runEvents
        ⟨NewChatService init config chatGpt ernieBot gptState ernieState today, []⟩
        events).svc.config = init config := h.2
    have hsum := h.1.2.2
    rw [hcf] at hsum
    omega
  · intro hk2 hL1 reply hr hans
    have hmax1 : (init config).EverydayLimit ≤ maxInt := by omega
    have hmax2 : (init config).EverydayLimit + 1 ≤ maxInt := by omega
    obtain ⟨s1, e1, h1g, h1c, h1p, hp1⟩ := soloRounds_run u reply hr
      ((init config).EverydayLimit - 1).toNat
      (NewChatService init config chatGpt ernieBot gptState ernieState today)
      hans (by rw [hzero u])
      (by
        rw [hzero u]
        show (0 : Int) + ((((init config).EverydayLimit - 1).toNat : Nat) : Int)
          ≤ (init config).EverydayLimit
        omega)
      hmax1
    have hg1 : getNum s1 u = (init config).EverydayLimit - 1 := by
      rw [h1g, hzero u]
      omega
    have hc1 : s1.config = init config := h1c
    have hans1 : ∀ st ctx v cnt,
        (s1.chatGpt.SendChatCompletion st ctx v cnt).1 = (reply, none) := by
      rw [h1p]
      exact hans
    obtain ⟨r1, r2, r3, r4, _, _⟩ := raceOfTwo_run s1 u reply hr hans1
      (by rw [hg1]; omega) (by rw [hg1, hc1]; omega) (by rw [hc1]; exact hmax2)
    refine ⟨soloRounds ((init config).EverydayLimit - 1).toNat u, ?_, ?_, ?_, ?_⟩
    · rw [peakFor_append, e1, r4]
      omega
    · rw [runEvents_append, e1]
      exact r1
    · rw [runEvents_append, e1, r2, hg1]
      omega
    · rw [runEvents_append, e1, r3, hc1]

theorem concurrent_over_admission_witness :
    peakFor "u1" ⟨demoService 1 (echoClient "hi") (echoClient "ni hao"), []⟩
      (raceOfTwo "u1") ≤ 2 ∧
    getNum (runEvents ⟨demoService 1 (echoClient "hi") (echoClient "ni hao"), []⟩
      (raceOfTwo "u1")).svc "u1" = 2 ∧
    getNum (runEvents ⟨demoService 1 (echoClient "hi") (echoClient "ni hao"), []⟩
      (raceOfTwo "u1")).svc "u1" ≤ 1 + (((2 : Nat) : Int) - 1) :=
  ⟨by decide, by decide,
    (concurrent_over_admission id ⟨ChatGPT, 1⟩ (echoClient "hi") (echoClient "ni hao") 0 0 14
      2 "u1" (by decide) (by decide) (by decide)).2.1 (raceOfTwo "u1") (by decide)⟩

end Chat
